import Mathlib

/-!
Verification of the drift-agents memory wrapper
(`src/shared/memory_wrapper.py`) against its specification.

Python strings are modelled as lists of characters (`Str`), Python floats
that only ever hold decimal literals and undergo the Q-update arithmetic are
modelled as rationals, and the database is modelled as an explicit state
record threaded through the wake/sleep functions.  External modules living in
the (absent) `drift-memory` directory — the DB adapter's queries, the Ollama
summariser, the session parser, the q-value engine constants, entity
detection, and JSON decoding — are modelled either from the spec (marked in
doc comments) or as oracle inputs carried by an environment record.
-/

namespace DriftAgents

/-- Python strings are modelled as lists of characters. -/
abbrev Str := List Char

/-- Characters removed by Python `str.strip()` (ASCII whitespace). -/
def isPyWhitespace (c : Char) : Bool :=
  c == ' ' || c == '\t' || c == '\n' || c == '\r' ||
    c == Char.ofNat 11 || c == Char.ofNat 12

/-- Python `str.strip()`. -/
def pyStrip (s : Str) : Str :=
  ((s.dropWhile isPyWhitespace).reverse.dropWhile isPyWhitespace).reverse

/-- Python `str.lower()` (all strings involved are ASCII). -/
def pyLower (s : Str) : Str := s.map Char.toLower

/-- Python slice `text[:k]` for non-negative `k`. -/
def pyTake (k : Nat) (s : Str) : Str := s.take k

/-- Python slice `text[-k:]`; for `k = 0` Python returns the whole string. -/
def pyTakeLast (k : Nat) (s : Str) : Str :=
  if k = 0 then s else s.drop (s.length - k)

/-- Python slice `text[a:b]` for non-negative `a ≤ b` within range. -/
def pySlice (a b : Nat) (s : Str) : Str := (s.take b).drop a

/-- Python substring test `pat in s`. -/
def isSubstr (pat : Str) : Str → Bool
  | [] => pat.isEmpty
  | c :: rest => pat.isPrefixOf (c :: rest) || isSubstr pat rest

/-- Python `'\n'.join`. -/
def joinNl (xs : List Str) : Str := List.intercalate ['\n'] xs

-- ============================================================
-- Transcript extractor (`_extract_from_log` / `_extract_from_jsonl`)
-- ============================================================

/-- The noise prefixes dropped from plain-text logs
(`ToolUse:`, `ToolResult:`, U+23F3, U+2713, U+26A1, three U+2500,
`Cost:`, `Duration:`, `Input tokens:`, `Output tokens:`). -/
def noiseLinePrefixes : List Str :=
  [ ("ToolUse:" : String).data, ("ToolResult:" : String).data,
    [Char.ofNat 0x23F3], [Char.ofNat 0x2713], [Char.ofNat 0x26A1],
    [Char.ofNat 0x2500, Char.ofNat 0x2500, Char.ofNat 0x2500],
    ("Cost:" : String).data, ("Duration:" : String).data,
    ("Input tokens:" : String).data, ("Output tokens:" : String).data ]

/-- The meaningful lines of a plain-text log: split on newlines, strip each
line, drop empty lines and lines starting with a noise prefix. -/
def meaningfulLines (content : Str) : List Str :=
  (content.splitOn '\n').filterMap (fun l =>
    let l' := pyStrip l
    if l'.isEmpty then none
    else if noiseLinePrefixes.any (fun p => p.isPrefixOf l') then none
    else some l')

def logElisionMarker1 : Str := ("\n\n[... middle of session ...]\n\n" : String).data

def logElisionMarker2 : Str := ("\n\n[... later ...]\n\n" : String).data

def jsonlElisionMarker : Str := ("\n\n[...]\n\n" : String).data

/-- The sampling tail shared by both extractor variants: text at or under
`maxChars` is returned whole, otherwise
`text[:chunk*2] ++ m1 ++ text[mid-chunk:mid+chunk] ++ m2 ++ text[-chunk*2:]`
with `chunk = maxChars // 5`. -/
def proportionalSample (m1 m2 : Str) (maxChars : Nat) (text : Str) : Str :=
  if text.length ≤ maxChars then text
  else
    let chunk := maxChars / 5
    let midPoint := text.length / 2
    pyTake (chunk * 2) text ++ m1 ++
      pySlice (midPoint - chunk) (midPoint + chunk) text ++ m2 ++
      pyTakeLast (chunk * 2) text

/-- A content block of a decoded JSONL entry (`message.content` element). -/
inductive JsonBlock where
  | textBlock (s : Str)
  | otherBlock
deriving DecidableEq

/-- A decoded JSONL line (the parseable ones; `json.loads` failures and blank
lines are skipped by the source and therefore never reach this model). -/
structure JsonEntry where
  etype : Str
  blocks : List JsonBlock
deriving DecidableEq

/-- The `[ASSISTANT]`/`[USER]` text fragments contributed by one entry. -/
def entryTexts (e : JsonEntry) : List Str :=
  if e.etype = ("assistant" : String).data then
    e.blocks.filterMap (fun b => match b with
      | .textBlock s => some ( ("[ASSISTANT] " : String).data ++ s)
      | .otherBlock => none)
  else if e.etype = ("human" : String).data then
    e.blocks.filterMap (fun b => match b with
      | .textBlock s =>
          if (("<system-reminder>" : String).data).isPrefixOf s then none
          else some ( ("[USER] " : String).data ++ s)
      | .otherBlock => none)
  else []

/-- Embedding of `_extract_from_jsonl`, taking the decoded entries (JSON
decoding itself is the Python standard library and is treated as an oracle). -/
def extract_from_jsonl (entries : List JsonEntry) (maxChars : Nat) : Str :=
  proportionalSample jsonlElisionMarker jsonlElisionMarker maxChars
    (joinNl (entries.map entryTexts).flatten)

/-- Embedding of `_extract_from_log`.  `jsonlEntries` is the oracle holding
the decoded lines used only when the stripped content starts with a brace. -/
def extract_from_log (jsonlEntries : List JsonEntry) (content : Str)
    (maxChars : Nat) : Str :=
  if (pyStrip content).head? = some (Char.ofNat 123) then
    extract_from_jsonl jsonlEntries maxChars
  else
    proportionalSample logElisionMarker1 logElisionMarker2 maxChars
      (joinNl (meaningfulLines content))

-- ============================================================
-- Data model
-- ============================================================

/-- A row of the per-agent `memories` table.  `q_value` defaults to 0.5 and
`freshness`/`recall` fields are as in spec §3; timestamps are epoch seconds. -/
structure Memory where
  id : Str
  mtype : Str
  content : Str
  tags : List Str
  emotional_weight : ℚ
  importance : ℚ
  freshness : ℚ
  q_value : ℚ
  recall_count : Nat
  sessions_since_recall : Nat
  last_recalled : Option Nat
  entities : List Str
  createdAt : Nat
deriving DecidableEq

/-- A row of the `sessions` table. -/
structure Session where
  sid : Nat
  startedAt : Nat
  endedAt : Option Nat
deriving DecidableEq

/-- A row of the append-only `q_value_history` table. -/
structure QHistRow where
  memory_id : Str
  session_id : Nat
  old_q : ℚ
  new_q : ℚ
  reward : ℚ
  reward_source : Str
deriving DecidableEq

/-- A row of the cross-agent `shared.memories` table. -/
structure SharedRow where
  id : Str
  content : Str
  created_by : String
  tags : List Str
  emotional_weight : ℚ
  importance : ℚ
deriving DecidableEq

/-- The database state of one agent namespace plus the shared tables.
`co` is the co-occurrence table as a count function (0 = row absent),
`kv` the `.wake_retrieved_ids` slot (ids, ISO timestamp), `registry` the
shared agent registry (schema name → last_active), `rngCursor` the position
consumed so far in the modelled random stream. -/
structure St where
  memories : List Memory
  co : Str × Str → Nat
  kv : Option (List Str × Str)
  qhist : List QHistRow
  shared : List SharedRow
  sessions : List Session
  registry : String → Option Nat
  rngCursor : Nat
  lastMemoryAt : Option Nat

/-- One thread item of the parsed summariser record. -/
structure ThreadItem where
  name : Str
  summary : Str
  status : Str
deriving DecidableEq

/-- The record returned by the (external) session parser:
threads, lessons and facts. -/
structure Parsed where
  threads : List ThreadItem
  lessons : List Str
  facts : List Str
deriving DecidableEq

/-- Oracle inputs of one sleep/wake run: the transcript (none = file
missing), the decoded JSONL entries, the summariser result (none = the
summariser raised), the parser output, the session date, clock values, the
random stream, the external entity detector, the affect/narrative/goal
strings produced by their external modules, the q-engine λ, and the
external decay-maintenance transformation (spec §4.12: it only adjusts
freshness / decay counters / the memory tier). -/
structure Env where
  transcript : Option Str
  jsonlEntries : List JsonEntry
  summarize : Option Str
  parsed : Parsed
  sessionDate : Str
  nowIso : Str
  now : Nat
  draws : Nat → Nat
  detect : Str → List Str → List Str
  affectSummary : Str
  lam : ℚ
  narrative : Str
  goalsText : Str
  maintain : Memory → Memory

-- ============================================================
-- Agents and id generation
-- ============================================================

/-- The agent keys of `AGENT_SCHEMAS` (each maps to itself, so
`AGENT_SCHEMAS.get(agent, agent)` is the identity). -/
def agentNames : List String := ["max", "beth", "susan", "debater"]

def AGENT_DISPLAY_NAMES : List (String × String) :=
  [("max", "Max Anvil"), ("beth", "Bethany Finkel"),
   ("susan", "Susan Casiodega"), ("debater", "The Great Debater")]

/-- `AGENT_DISPLAY_NAMES.get(agent, agent)`. -/
def displayName (agent : String) : Str :=
  (((AGENT_DISPLAY_NAMES.find? (fun p => p.1 == agent)).map Prod.snd).getD agent).data

def idAlphabet : Str := ("abcdefghijklmnopqrstuvwxyz0123456789" : String).data

/-- `gen_id`: eight uniform draws from lowercase letters and digits.  The RNG
is modelled as a stream of naturals; each draw picks `alphabet[d % 36]`. -/
def genId (draws : Nat → Nat) (base : Nat) : Str :=
  (List.range 8).map (fun i => idAlphabet.getD (draws (base + i) % 36) 'a')

/-- Draw a fresh id, advancing the random cursor. -/
def takeId (env : Env) (st : St) : Str × St :=
  (genId env.draws st.rngCursor, { st with rngCursor := st.rngCursor + 8 })

/-- `db.insert_memory`: append the row (ids are assumed fresh; a duplicate
primary key would abort the whole run in the source). -/
def insertMemory (env : Env) (st : St) (m : Memory) : St :=
  { st with memories := st.memories ++ [m], lastMemoryAt := some env.now }

-- ============================================================
-- Memory ingest (`_store_parsed_memories`, `_store_raw_fallback`)
-- ============================================================

def sessionTag (env : Env) : Str := ("session-" : String).data ++ env.sessionDate

/-- The thread status → emotional-weight dict with default 0.5. -/
def threadEmotion (status : Str) : ℚ :=
  if status = ("completed" : String).data then 65/100
  else if status = ("blocked" : String).data then 3/10
  else if status = ("in-progress" : String).data then 1/2
  else 1/2

def mkThreadMemory (env : Env) (mid : Str) (th : ThreadItem) : Memory :=
  let content := ("[Session " : String).data ++ env.sessionDate ++
    ("] Thread: " : String).data ++ th.name ++ (". " : String).data ++ th.summary ++
    (" Status: " : String).data ++ th.status ++ ("." : String).data
  let tags := [("session-summary" : String).data, ("thread" : String).data,
    sessionTag env, ("thread-" : String).data ++ th.status]
  { id := mid, mtype := ("active" : String).data, content := content, tags := tags,
    emotional_weight := threadEmotion th.status, importance := 1/2, freshness := 1,
    q_value := 1/2, recall_count := 0, sessions_since_recall := 0, last_recalled := none,
    entities := env.detect content tags, createdAt := env.now }

def mkLessonMemory (env : Env) (mid : Str) (lesson : Str) : Memory :=
  let content := ("[Session " : String).data ++ env.sessionDate ++
    ("] Lesson learned: " : String).data ++ lesson
  let tags := [("session-summary" : String).data, ("lesson" : String).data,
    sessionTag env, ("heuristic" : String).data]
  { id := mid, mtype := ("active" : String).data, content := content, tags := tags,
    emotional_weight := 6/10, importance := 6/10, freshness := 1,
    q_value := 1/2, recall_count := 0, sessions_since_recall := 0, last_recalled := none,
    entities := env.detect content tags, createdAt := env.now }

def mkFactMemory (env : Env) (mid : Str) (fact : Str) : Memory :=
  let content := ("[Session " : String).data ++ env.sessionDate ++
    ("] Key fact: " : String).data ++ fact
  let tags := [("session-summary" : String).data, ("key-fact" : String).data,
    sessionTag env, ("procedural" : String).data]
  { id := mid, mtype := ("active" : String).data, content := content, tags := tags,
    emotional_weight := 1/2, importance := 1/2, freshness := 1,
    q_value := 1/2, recall_count := 0, sessions_since_recall := 0, last_recalled := none,
    entities := env.detect content tags, createdAt := env.now }

/-- One `for` loop of `_store_parsed_memories`: generate an id, insert the
memory built from the item, collect the id. -/
def storeItems {α : Type} (env : Env) (mk : Str → α → Memory) :
    List α → St → St × List Str
  | [], st => (st, [])
  | it :: rest, st =>
    let p := takeId env st
    let st' := insertMemory env p.2 (mk p.1 it)
    let q := storeItems env mk rest st'
    (q.1, p.1 :: q.2)

/-- `ON CONFLICT (memory_id, other_id) DO UPDATE count = count + 1`. -/
def bumpCo (t : Str × Str → Nat) (a b : Str) : Str × Str → Nat :=
  fun p => if p = (a, b) then t p + 1 else t p

/-- The ordered pairs touched by the co-occurrence loop, in loop order:
for `j < k`, first `(ids[j], ids[k])` then `(ids[k], ids[j])`. -/
def coPairs : List Str → List (Str × Str)
  | [] => []
  | x :: xs => (xs.map (fun y => [(x, y), (y, x)])).flatten ++ coPairs xs

/-- The co-occurrence linking block (`if len(stored_ids) > 1`). -/
def linkCoOccurrences (ids : List Str) (st : St) : St :=
  if 1 < ids.length then
    { st with co := (coPairs ids).foldl (fun t p => bumpCo t p.1 p.2) st.co }
  else st

/-- Embedding of `_store_parsed_memories`.  Embedding of each memory for
semantic search (`_embed_memory`) is an external fail-silent call that does
not touch the modelled state. -/
def store_parsed_memories (env : Env) (parsed : Parsed) (st : St) :
    St × List Str :=
  let a := storeItems env (mkThreadMemory env) parsed.threads st
  let b := storeItems env (mkLessonMemory env) parsed.lessons a.1
  let c := storeItems env (mkFactMemory env) parsed.facts b.1
  let ids := a.2 ++ b.2 ++ c.2
  (linkCoOccurrences ids c.1, ids)

/-- Embedding of `_store_raw_fallback`. -/
def store_raw_fallback (env : Env) (sessionText : Str) (st : St) : St :=
  let excerpt := if 1200 < sessionText.length then
      pyTake 500 sessionText ++ ("\n\n[...]\n\n" : String).data ++
        pyTakeLast 500 sessionText
    else sessionText
  let p := takeId env st
  let content := ("[Session " : String).data ++ env.sessionDate ++
    ("] Raw session excerpt (summarizer failed):\n" : String).data ++ excerpt
  insertMemory env p.2
    { id := p.1, mtype := ("active" : String).data, content := content,
      tags := [("session-summary" : String).data, ("raw-excerpt" : String).data,
        sessionTag env],
      emotional_weight := 3/10, importance := 3/10, freshness := 1, q_value := 1/2,
      recall_count := 0, sessions_since_recall := 0, last_recalled := none,
      entities := [], createdAt := env.now }

-- ============================================================
-- Cross-agent share (`_cross_pollinate`)
-- ============================================================

def SHARED_KEYWORDS : List Str :=
  [("clawbr" : String).data, ("platform update" : String).data,
   ("community" : String).data, ("api change" : String).data,
   ("endpoint" : String).data, ("all agents" : String).data,
   ("everyone" : String).data]

/-- The fixed opinion vocabulary (`DEBATE_OPINION_KEYWORDS`). -/
def DEBATE_OPINION_KEYWORDS : List Str :=
  [("voted" : String).data, ("vote for" : String).data, ("con wins" : String).data,
   ("pro wins" : String).data, ("con won" : String).data, ("pro won" : String).data,
   ("scope retreat" : String).data, ("rebuttal" : String).data,
   ("opening argument" : String).data, ("debate analysis" : String).data,
   ("debate vote" : String).data, ("judging" : String).data, ("ruling" : String).data,
   ("verdict" : String).data, ("debate" : String).data, ("debating" : String).data,
   ("defensible position" : String).data, ("definitional drift" : String).data,
   ("argumentative" : String).data]

/-- `_is_debate_opinion`: any opinion keyword occurs in the lowercased text. -/
def is_debate_opinion (text : Str) : Bool :=
  DEBATE_OPINION_KEYWORDS.any (fun kw => isSubstr kw (pyLower text))

def LESSON_SHARE_KEYWORDS : List Str :=
  [("api" : String).data, ("endpoint" : String).data, ("clawbr" : String).data,
   ("character limit" : String).data, ("format" : String).data,
   ("platform" : String).data, ("bug" : String).data, ("error" : String).data,
   ("workaround" : String).data, ("config" : String).data]

def threadShareContent (agent : String) (th : ThreadItem) : Str :=
  [ '[' ] ++ displayName agent ++ ("] Thread: " : String).data ++ th.name ++
    (". " : String).data ++ th.summary

def lessonShareContent (agent : String) (lesson : Str) : Str :=
  [ '[' ] ++ displayName agent ++ ("] Lesson: " : String).data ++ lesson

def factShareContent (agent : String) (fact : Str) : Str :=
  [ '[' ] ++ displayName agent ++ ("] Fact: " : String).data ++ fact

/-- The `items_to_share` list assembled by `_cross_pollinate`. -/
def crossPollinateItems (agent : String) (parsed : Parsed) : List Str :=
  let other_agents := agentNames.filter (fun a => a ≠ agent)
  let threadItems := parsed.threads.filterMap (fun th =>
    let text := pyLower (th.summary ++ [' '] ++ th.name)
    if is_debate_opinion text then none
    else if SHARED_KEYWORDS.any (fun kw => isSubstr kw text) ||
        other_agents.any (fun a => isSubstr a.data text) then
      some (threadShareContent agent th)
    else none)
  let lessonItems := parsed.lessons.filterMap (fun lesson =>
    let lessonLower := pyLower lesson
    if is_debate_opinion lessonLower then none
    else if LESSON_SHARE_KEYWORDS.any (fun kw => isSubstr kw lessonLower) then
      some (lessonShareContent agent lesson)
    else none)
  let factItems := parsed.facts.filterMap (fun fact =>
    let text := pyLower fact
    if is_debate_opinion text then none
    else if SHARED_KEYWORDS.any (fun kw => isSubstr kw text) ||
        other_agents.any (fun a => isSubstr a.data text) then
      some (factShareContent agent fact)
    else none)
  threadItems ++ lessonItems ++ factItems

/-- `INSERT INTO shared.memories ... ON CONFLICT (id) DO NOTHING`. -/
def insertSharedRow (st : St) (row : SharedRow) : St :=
  if st.shared.any (fun r => r.id = row.id) then st
  else { st with shared := st.shared ++ [row] }

/-- Embedding of `_cross_pollinate`. -/
def cross_pollinate (env : Env) (agent : String) (parsed : Parsed) (st : St) : St :=
  (crossPollinateItems agent parsed).foldl (fun st content =>
    let p := takeId env st
    insertSharedRow p.2
      { id := p.1, content := content, created_by := agent,
        tags := [("cross-agent" : String).data, sessionTag env,
          ("from-" : String).data ++ agent.data],
        emotional_weight := 1/2, importance := 1/2 }) st

-- ============================================================
-- Q-value credit assignment (`_sleep_qvalue_update`)
-- ============================================================

/-- Modelled from the spec: the `q_value_engine` module is not under `src/`.
Update step α. -/
def Q_ALPHA : ℚ := 3/10

/-- Modelled from the spec: positive reward for wake memories that preceded
new memory creation. -/
def REWARD_DOWNSTREAM : ℚ := 7/10

/-- Modelled from the spec: near-zero reward for wake memories followed by no
new memories. -/
def REWARD_DEAD_END : ℚ := 1/10

/-- Modelled from the spec: `q' = clamp(q + α(reward − q), 0, 1)`. -/
def update_q (q reward : ℚ) : ℚ := max 0 (min 1 (q + Q_ALPHA * (reward - q)))

/-- The neutral Q prior `0.5`, written in reduced numerator/denominator form
(the same rational as `1/2`, see `Q_DEFAULT_eq`). -/
def Q_DEFAULT : ℚ := Rat.mk' 1 2

/-- Modelled from the spec: `get_q_values` reads the `q_value` column of the
ids present in the table. -/
def getQ (st : St) (mid : Str) : Option ℚ :=
  (st.memories.find? (fun m => m.id == mid)).map (fun m => m.q_value)

def setQ (st : St) (mid : Str) (q : ℚ) : St :=
  { st with memories := st.memories.map (fun m =>
      if m.id = mid then { m with q_value := q } else m) }

/-- The history row written for one retrieved id. -/
def qRowOf (sid : Nat) (qv : Str → ℚ) (reward : ℚ) (src : Str) (mid : Str) :
    QHistRow :=
  { memory_id := mid, session_id := sid, old_q := qv mid,
    new_q := update_q (qv mid) reward, reward := reward, reward_source := src }

/-- The per-id loop of `_sleep_qvalue_update`: update the `q_value` column
and append a history row, reading old values from the pre-loop snapshot. -/
def qUpdateLoop (sid : Nat) (qv : Str → ℚ) (reward : ℚ) (src : Str) :
    List Str → St → St
  | [], st => st
  | mid :: rest, st =>
    let st := setQ st mid (update_q (qv mid) reward)
    let st := { st with qhist := st.qhist ++ [qRowOf sid qv reward src mid] }
    qUpdateLoop sid qv reward src rest st

/-- Embedding of `_sleep_qvalue_update`.  `q_vals` is the pre-loop snapshot
(`get_q_values` is called once); the KV slot is cleared only after at least
one id was processed, exactly as the early returns of the source leave it. -/
def sleep_qvalue_update (_env : Env) (session_id : Option Nat)
    (stored_ids : List Str) (st : St) : St :=
  match st.kv with
  | none => st
  | some kvVal =>
    let retrieved_ids := kvVal.1
    if retrieved_ids.isEmpty then st
    else
      let q_vals := fun mid => (getQ st mid).getD (1/2)
      let hasNew := decide (0 < stored_ids.length)
      let reward := if hasNew then REWARD_DOWNSTREAM else REWARD_DEAD_END
      let reward_source := if hasNew then ("downstream" : String).data
        else ("dead_end" : String).data
      let st := qUpdateLoop (session_id.getD 0) q_vals reward reward_source
        retrieved_ids st
      { st with kv := none }

-- ============================================================
-- Sleep pipeline (`sleep`, `_sleep_finalize`)
-- ============================================================

def end_session (now : Nat) (sid : Nat) (sessions : List Session) : List Session :=
  sessions.map (fun s => if s.sid = sid then { s with endedAt := some now } else s)

/-- Embedding of `_sleep_finalize`: end the session and update the shared
agent registry (`AGENT_SCHEMAS.get(agent, agent) = agent`; the SQL UPDATE
touches only an existing row). -/
def sleep_finalize (env : Env) (agent : String) (session_id : Option Nat)
    (st : St) : St :=
  let st := match session_id with
    | some sid => { st with sessions := end_session env.now sid st.sessions }
    | none => st
  { st with registry := fun s =>
      if s = agent ∧ (st.registry s).isSome then some env.now else st.registry s }

/-- Embedding of `sleep`.  The affect, knowledge-graph, lesson-extraction and
goal-evaluation phases are external drift-memory modules acting on state
outside this model; decay maintenance (`session_maintenance`, also external)
is modelled per spec §4.12 as the per-memory transformation `env.maintain`
applied on the successful path. -/
def sleep (env : Env) (agent : String) (st : St) : St × Bool :=
  match env.transcript with
  | none => (st, false)
  | some content =>
    let sid := st.sessions.length
    let st := { st with sessions := st.sessions ++
      [{ sid := sid, startedAt := env.now, endedAt := none }] }
    let session_text := extract_from_log env.jsonlEntries content 10000
    if session_text.length < 50 then
      (sleep_finalize env agent (some sid) st, false)
    else
      match env.summarize with
      | none =>
        let st := store_raw_fallback env session_text st
        (sleep_finalize env agent (some sid) st, false)
      | some raw_output =>
        if raw_output.length < 30 then
          let st := store_raw_fallback env session_text st
          (sleep_finalize env agent (some sid) st, false)
        else
          let parsed := env.parsed
          if parsed.threads.isEmpty && parsed.lessons.isEmpty &&
              parsed.facts.isEmpty then
            let st := store_raw_fallback env session_text st
            (sleep_finalize env agent (some sid) st, false)
          else
            let r := store_parsed_memories env parsed st
            let st := cross_pollinate env agent parsed r.1
            let st := sleep_qvalue_update env (some sid) r.2 st
            let st := { st with memories := st.memories.map env.maintain }
            (sleep_finalize env agent (some sid) st, true)

-- ============================================================
-- Wake (`wake` and its sub-modules)
-- ============================================================

/-- Number rendering inside preamble lines; Python `%d` / format specifiers
are modelled by Lean's `toString` (no claim depends on the digits). -/
def natStr (n : Nat) : Str := (toString n).data

def ratStr (q : ℚ) : Str := (toString q).data

/-- `content[:150].replace('\n', ' ')`. -/
def previewOf (content : Str) : Str :=
  (content.take 150).map (fun c => if c = '\n' then ' ' else c)

def labelOf (tags : List Str) : Str :=
  if tags.contains (("lesson" : String).data) then ("Lesson" : String).data
  else if tags.contains (("key-fact" : String).data) then ("Fact" : String).data
  else if tags.contains (("thread" : String).data) then ("Thread" : String).data
  else ("Recent" : String).data

/-- Spec-modelled `db.list_memories(type, limit)` (the adapter is not under
`src/`): rows of the given type, most recent first. -/
def list_memories (st : St) (t : Str) (limit : Nat) : List Memory :=
  ((st.memories.filter (fun m => m.mtype == t)).reverse).take limit

def insertByWeightDesc (m : Memory) : List Memory → List Memory
  | [] => [m]
  | x :: xs => if x.emotional_weight < m.emotional_weight then m :: x :: xs
    else x :: insertByWeightDesc m xs

/-- Spec-modelled `ORDER BY emotional_weight DESC` (stable insertion sort;
the SQL order among equal weights is unspecified and no claim depends on
it). -/
def sortByWeightDesc : List Memory → List Memory
  | [] => []
  | x :: xs => insertByWeightDesc x (sortByWeightDesc xs)

/-- The wake lessons query: `'lesson' = ANY(tags) AND type IN
('core','active') ORDER BY emotional_weight DESC LIMIT 3`. -/
def lessonRows (st : St) : List Memory :=
  (sortByWeightDesc (st.memories.filter (fun m =>
    m.tags.contains (("lesson" : String).data) &&
      (m.mtype == ("core" : String).data ||
        m.mtype == ("active" : String).data)))).take 3

/-- The lesson loop of `wake`: a line is appended only when the first 50
characters of its preview occur in no line emitted so far. -/
def lessonFold (rows : List Memory) (lines : List Str) : List Str :=
  rows.foldl (fun ls row =>
    let preview := previewOf row.content
    if ls.any (fun l => isSubstr (preview.take 50) l) then ls
    else ls ++ [("[Lesson] " : String).data ++ preview]) lines

/-- `_wake_qvalue_rerank`'s optional summary line. -/
def qvalueLine (unique : List Str) (st : St) (lam : ℚ) : Option Str :=
  let pairs := unique.filterMap (fun mid => (getQ st mid).map (fun q => (mid, q)))
  let trained := pairs.filter (fun p => p.2 ≠ Q_DEFAULT)
  if pairs.isEmpty || trained.isEmpty then none
  else some ( ("[Q-Values] " : String).data ++ natStr trained.length ++ [ '/' ] ++
    natStr pairs.length ++ (" trained | avg Q=" : String).data ++
    ratStr ((trained.map Prod.snd).sum / (trained.length : ℚ)) ++
    (" | lambda=" : String).data ++ ratStr lam)

/-- The atomic recall update `recall_count += 1, sessions_since_recall = 0,
last_recalled = NOW()` for the deduplicated recalled ids. -/
def recallBump (now : Nat) (unique : List Str) (ms : List Memory) : List Memory :=
  ms.map (fun m => if unique.contains m.id then
    { m with
        recall_count := m.recall_count + 1
        sessions_since_recall := 0
        last_recalled := some now } else m)

/-- `_get_shared_memories`: the most recent shared rows authored by other
agents, rendered with the author display name. -/
def get_shared_memories (st : St) (agent : String) (limit : Nat) : List Str :=
  (((st.shared.filter (fun r => r.created_by != agent)).reverse).take limit).map
    (fun r => ("[Shared/" : String).data ++ displayName r.created_by ++
      ("] " : String).data ++ previewOf r.content)

def agoStr (now : Nat) (lastMemoryAt : Option Nat) : Str :=
  match lastMemoryAt with
  | none => ("never" : String).data
  | some t =>
    let seconds := now - t
    let hours := seconds / 3600
    if hours < 1 then natStr (seconds / 60) ++ ("m ago" : String).data
    else if hours < 24 then natStr hours ++ ("h ago" : String).data
    else natStr (hours / 24) ++ ("d ago" : String).data

/-- The stats footer line (`get_stats` is spec-modelled from the state). -/
def statsLine (st : St) (now : Nat) : Str :=
  let core := (st.memories.filter (fun m => m.mtype == ("core" : String).data)).length
  let active := (st.memories.filter (fun m => m.mtype == ("active" : String).data)).length
  ("Total memories: " : String).data ++ natStr st.memories.length ++
    (" (core: " : String).data ++ natStr core ++ (", active: " : String).data ++
    natStr active ++ (") | Last session: " : String).data ++
    agoStr now st.lastMemoryAt ++ (" | Sessions: " : String).data ++
    natStr st.sessions.length

def noMemLine : Str :=
  ("[No memories yet — this is your first session with persistent memory.]" : String).data

def totalZeroLine : Str := ("Total memories: 0" : String).data

def sepLine : Str := ("===" : String).data

def wakeHeader (agent : String) : Str :=
  ("=== YOUR MEMORY (" : String).data ++ displayName agent ++ (") ===" : String).data

/-- Embedding of `wake`.  Returns the preamble lines and the state after the
recall-count bump and the KV write.  The affect/narrative/goal texts are
oracle inputs from their external modules. -/
def wake (env : Env) (agent : String) (st : St) : List Str × St :=
  if st.memories.length = 0 then
    let lines := [wakeHeader agent, noMemLine, totalZeroLine, sepLine]
    let lines := if env.affectSummary.isEmpty then lines
      else lines ++ [([] : Str), env.affectSummary]
    let lines := if 10 < (pyStrip env.goalsText).length then
      lines ++ [([] : Str), pyStrip env.goalsText] else lines
    (lines, st)
  else
    let footer := statsLine st env.now
    let lines := [wakeHeader agent]
    let lines := if env.affectSummary.isEmpty then lines
      else lines ++ [([] : Str), env.affectSummary]
    let recent := list_memories st (("active" : String).data) 5
    let lines := if recent.isEmpty then lines else
      lines ++ [([] : Str)] ++ recent.map (fun m =>
        [ '[' ] ++ labelOf m.tags ++ ("] " : String).data ++ previewOf m.content)
    let core := list_memories st (("core" : String).data) 3
    let lines := if core.isEmpty then lines else
      lines ++ [([] : Str)] ++ core.map (fun m =>
        ("[Core] " : String).data ++ previewOf m.content)
    let lessons := lessonRows st
    let lines := if lessons.isEmpty then lines
      else lessonFold lessons (lines ++ [([] : Str)])
    let recalled := recent.map Memory.id ++ core.map Memory.id ++
      lessons.map Memory.id
    let unique := recalled.dedup
    let lines := match qvalueLine unique st env.lam with
      | some ql => lines ++ [([] : Str), ql]
      | none => lines
    let st := { st with memories := recallBump env.now unique st.memories }
    let st := { st with kv := some (unique, env.nowIso) }
    let sharedLs := get_shared_memories st agent 3
    let lines := if sharedLs.isEmpty then lines
      else lines ++ [([] : Str)] ++ sharedLs
    let lines := if 10 < (pyStrip env.narrative).length then
      lines ++ [([] : Str), pyStrip env.narrative] else lines
    let lines := if 10 < (pyStrip env.goalsText).length then
      lines ++ [([] : Str), pyStrip env.goalsText] else lines
    let lines := lines ++ [([] : Str), footer, sepLine]
    (lines, st)

-- ============================================================
-- Concrete fixtures
-- ============================================================

/-- The empty namespace state. -/
def stEmpty : St :=
  { memories := [], co := fun _ => 0, kv := none, qhist := [], shared := [],
    sessions := [], registry := fun _ => none, rngCursor := 0,
    lastMemoryAt := none }

/-- A base environment for concrete runs (identity random stream, no
external texts, decay maintenance a no-op). -/
def baseEnv : Env :=
  { transcript := none, jsonlEntries := [], summarize := none,
    parsed := { threads := [], lessons := [], facts := [] },
    sessionDate := ("2026-01-01" : String).data,
    nowIso := ("2026-01-01T00:00:00+00:00" : String).data,
    now := 1000000, draws := fun n => n, detect := fun _ _ => [],
    affectSummary := [], lam := 3/10, narrative := [], goalsText := [],
    maintain := id }

-- ============================================================
-- Derived forms of the storage loops (used to state the claims)
-- ============================================================

/-- The memories created by one `storeItems` loop, the random cursor
advancing by 8 draws per generated id. -/
def mkItems {α : Type} (env : Env) (mk : Str → α → Memory) :
    List α → Nat → List Memory
  | [], _ => []
  | it :: rest, base =>
    mk (genId env.draws base) it :: mkItems env mk rest (base + 8)

/-- The ids produced by consecutive `gen_id` calls. -/
def idsFrom (env : Env) : Nat → Nat → List Str
  | 0, _ => []
  | n + 1, base => genId env.draws base :: idsFrom env n (base + 8)

/-- The excerpt stored by `_store_raw_fallback`: first 500 + elision + last
500 characters when the text exceeds 1200 characters, else the whole text. -/
def rawExcerpt (sessionText : Str) : Str :=
  if 1200 < sessionText.length then
    pyTake 500 sessionText ++ ("\n\n[...]\n\n" : String).data ++
      pyTakeLast 500 sessionText
  else sessionText

/-- The raw-fallback memory row. -/
def rawFallbackMemory (env : Env) (sessionText : Str) (base : Nat) : Memory :=
  { id := genId env.draws base, mtype := ("active" : String).data,
    content := ("[Session " : String).data ++ env.sessionDate ++
      ("] Raw session excerpt (summarizer failed):\n" : String).data ++
      rawExcerpt sessionText,
    tags := [("session-summary" : String).data, ("raw-excerpt" : String).data,
      sessionTag env],
    emotional_weight := 3/10, importance := 3/10, freshness := 1, q_value := 1/2,
    recall_count := 0, sessions_since_recall := 0, last_recalled := none,
    entities := [], createdAt := env.now }

/-- The cumulative effect of the `qUpdateLoop` `q_value` writes on one row. -/
def qApply (qv : Str → ℚ) (reward : ℚ) (ids : List Str) (m : Memory) : Memory :=
  ids.foldl (fun m mid =>
    if m.id = mid then { m with q_value := update_q (qv mid) reward } else m) m

/-- All memories inserted by one `_store_parsed_memories` call: threads,
then lessons, then facts. -/
def newMemories (env : Env) (parsed : Parsed) (base : Nat) : List Memory :=
  mkItems env (mkThreadMemory env) parsed.threads base ++
    mkItems env (mkLessonMemory env) parsed.lessons
      (base + 8 * parsed.threads.length) ++
    mkItems env (mkFactMemory env) parsed.facts
      (base + 8 * parsed.threads.length + 8 * parsed.lessons.length)

/-- All ids generated by one `_store_parsed_memories` call. -/
def newIds (env : Env) (parsed : Parsed) (base : Nat) : List Str :=
  idsFrom env parsed.threads.length base ++
    idsFrom env parsed.lessons.length (base + 8 * parsed.threads.length) ++
    idsFrom env parsed.facts.length
      (base + 8 * parsed.threads.length + 8 * parsed.lessons.length)

def rawExcerptTag : Str := ("raw-excerpt" : String).data

/-- The ids collected while assembling the wake preamble (recent, core and
lesson query results, in collection order; lesson ids are collected even
when their line is suppressed as a duplicate). -/
def wakeRecalled (st : St) : List Str :=
  (list_memories st (("active" : String).data) 5).map Memory.id ++
    (list_memories st (("core" : String).data) 3).map Memory.id ++
    (lessonRows st).map Memory.id

/-- The wake preamble up to and including the core block, written as a flat
concatenation of independent blocks (header, optional affect summary, recent
block, core block). -/
def wakePrefix (env : Env) (agent : String) (st : St) : List Str :=
  [wakeHeader agent] ++
  (if env.affectSummary.isEmpty then [] else [([] : Str), env.affectSummary]) ++
  (if (list_memories st (("active" : String).data) 5).isEmpty then []
   else [([] : Str)] ++ (list_memories st (("active" : String).data) 5).map (fun m =>
     [ '[' ] ++ labelOf m.tags ++ ("] " : String).data ++ previewOf m.content)) ++
  (if (list_memories st (("core" : String).data) 3).isEmpty then []
   else [([] : Str)] ++ (list_memories st (("core" : String).data) 3).map (fun m =>
     ("[Core] " : String).data ++ previewOf m.content))

/-- A plain active memory used to exercise the wake preamble. -/
def memC9 : Memory :=
  { id := ("mmmmmmmm" : String).data, mtype := ("active" : String).data,
    content := ("hello there friend" : String).data, tags := [],
    emotional_weight := 1/2, importance := 1/2, freshness := 1,
    q_value := Q_DEFAULT,
    recall_count := 0, sessions_since_recall := 0, last_recalled := none,
    entities := [], createdAt := 0 }

/-- A shared row authored by another agent. -/
def sharedC9 : SharedRow :=
  { id := ("ssssssss" : String).data,
    content := ("a tip from beth" : String).data, created_by := "beth",
    tags := [], emotional_weight := 1/2, importance := 1/2 }

/-- An environment whose self-narrative module returns a paragraph. -/
def envC9 : Env :=
  { baseEnv with narrative := ("I am a test narrative." : String).data }

/-- A namespace holding one active memory, with one shared row from another
agent. -/
def stC9 : St := { stEmpty with memories := [memC9], shared := [sharedC9] }

-- ============================================================
-- Claim fixtures
-- ============================================================

/-- The environment of the C1 counterexample: a successful sleep of agent
`debater` whose sole parsed fact mentions the platform (`clawbr`) and
contains no opinion-vocabulary word. -/
def envC1 : Env :=
  { baseEnv with
      transcript := some (List.replicate 60 'a')
      summarize := some (List.replicate 40 'b')
      parsed := { threads := [], lessons := [], facts := [("clawbr is online" : String).data] } }

/-- The shared row produced by the C1 witness run. -/
def rowC1 : SharedRow :=
  { id := genId baseEnv.draws 0,
    content := factShareContent "max" ("clawbr x" : String).data,
    created_by := "max",
    tags := [("cross-agent" : String).data, sessionTag baseEnv,
      ("from-" : String).data ++ ("max" : String).data],
    emotional_weight := 1/2, importance := 1/2 }

/-- The parsed record of the C1 witness run. -/
def parsedC1w : Parsed :=
  { threads := [], lessons := [], facts := [("clawbr x" : String).data] }

/-- The C2 counterexample environment: a valid 60-character transcript whose
summarisation raises. -/
def envC2 : Env := { baseEnv with transcript := some (List.replicate 60 'a') }

/-- A previously-recalled memory with a trained Q-value. -/
def memC3 : Memory :=
  { id := ("abcdefgh" : String).data, mtype := ("active" : String).data,
    content := ("hello" : String).data, tags := [], emotional_weight := 1/2,
    importance := 1/2, freshness := 1, q_value := 9/10, recall_count := 1,
    sessions_since_recall := 0, last_recalled := none, entities := [],
    createdAt := 0 }

/-- A state in which the last wake recorded one retrieved id. -/
def stC3 : St :=
  { stEmpty with
      memories := [memC3]
      kv := some ([("abcdefgh" : String).data], baseEnv.nowIso) }

/-- A transcript too short to summarise: the sleep stores nothing. -/
def envC3 : Env := { baseEnv with transcript := some (List.replicate 10 'a') }

/-- The successful-store environment used to witness C3 and C4. -/
def envOk : Env :=
  { baseEnv with
      transcript := some (List.replicate 60 'a')
      summarize := some (List.replicate 40 'b')
      parsed := { threads := [], lessons := [], facts := [("x" : String).data] } }

/-- The two-fact parsed record used to witness C7. -/
def parsedC7 : Parsed :=
  { threads := [], lessons := [],
    facts := [("f one" : String).data, ("f two" : String).data] }

/-- The state used to witness C10: empty namespace, registry row present. -/
def stC10 : St :=
  { stEmpty with registry := fun s => if s = "max" then some 5 else none }

-- ============================================================
-- General lemmas
-- ============================================================

theorem store_raw_fallback_eq (env : Env) (t : Str) (st : St) :
    store_raw_fallback env t st =
      { st with
          memories := st.memories ++ [rawFallbackMemory env t st.rngCursor]
          rngCursor := st.rngCursor + 8
          lastMemoryAt := some env.now } := rfl

theorem storeItems_state {α : Type} (env : Env) (mk : Str → α → Memory)
    (items : List α) : ∀ (st : St),
    storeItems env mk items st =
      ({ st with
          memories := st.memories ++ mkItems env mk items st.rngCursor
          rngCursor := st.rngCursor + 8 * items.length
          lastMemoryAt := if items.isEmpty then st.lastMemoryAt
            else some env.now },
        idsFrom env items.length st.rngCursor) := by
  induction items with
  | nil =>
    intro st
    simp [storeItems, mkItems, idsFrom]
  | cons it rest ih =>
    intro st
    show storeItems env mk (it :: rest) st = _
    unfold storeItems
    simp only []
    rw [ih]
    cases st
    simp only [insertMemory, takeId, mkItems, idsFrom, List.length_cons,
      List.isEmpty_cons, St.mk.injEq, Prod.mk.injEq]
    and_intros <;>
      first
        | rfl
        | trivial
        | simp [List.append_assoc]
        | ring

theorem qUpdateLoop_state (sid : Nat) (qv : Str → ℚ) (reward : ℚ) (src : Str)
    (ids : List Str) : ∀ (st : St),
    qUpdateLoop sid qv reward src ids st =
      { st with
          memories := st.memories.map (qApply qv reward ids)
          qhist := st.qhist ++ ids.map (qRowOf sid qv reward src) } := by
  induction ids with
  | nil =>
    intro st
    have hm : st.memories.map (qApply qv reward []) = st.memories := by
      have h : ∀ m ∈ st.memories, qApply qv reward [] m = m := fun m _ => rfl
      rw [List.map_congr_left h]
      simp
    show st = _
    rw [hm, List.map_nil, List.append_nil]
  | cons mid rest ih =>
    intro st
    show qUpdateLoop sid qv reward src (mid :: rest) st = _
    unfold qUpdateLoop
    simp only []
    rw [ih]
    cases st
    simp only [setQ, qApply, St.mk.injEq, List.map_map, List.foldl_cons,
      List.map_cons, List.append_assoc, List.singleton_append]
    and_intros <;> first | rfl | trivial

theorem qApply_preserves (qv : Str → ℚ) (reward : ℚ) (ids : List Str) :
    ∀ (m : Memory), (qApply qv reward ids m).id = m.id ∧
      (qApply qv reward ids m).tags = m.tags ∧
      (qApply qv reward ids m).mtype = m.mtype ∧
      (qApply qv reward ids m).content = m.content := by
  induction ids with
  | nil => intro m; exact ⟨rfl, rfl, rfl, rfl⟩
  | cons mid rest ih =>
    intro m
    show (qApply qv reward (mid :: rest) m).id = m.id ∧ _
    unfold qApply
    simp only [List.foldl_cons]
    rcases ih (if m.id = mid then { m with q_value := update_q (qv mid) reward }
      else m) with ⟨h1, h2, h3, h4⟩
    unfold qApply at h1 h2 h3 h4
    rw [h1, h2, h3, h4]
    split <;> exact ⟨rfl, rfl, rfl, rfl⟩

theorem insertSharedRow_fields (st : St) (row : SharedRow) :
    (insertSharedRow st row).memories = st.memories ∧
    (insertSharedRow st row).kv = st.kv ∧
    (insertSharedRow st row).qhist = st.qhist ∧
    (insertSharedRow st row).sessions = st.sessions ∧
    (insertSharedRow st row).rngCursor = st.rngCursor ∧
    (insertSharedRow st row).co = st.co := by
  unfold insertSharedRow
  split <;> exact ⟨rfl, rfl, rfl, rfl, rfl, rfl⟩

theorem cross_pollinate_fields (env : Env) (agent : String) (parsed : Parsed) :
    ∀ (st : St),
    (cross_pollinate env agent parsed st).memories = st.memories ∧
    (cross_pollinate env agent parsed st).kv = st.kv ∧
    (cross_pollinate env agent parsed st).qhist = st.qhist ∧
    (cross_pollinate env agent parsed st).sessions = st.sessions ∧
    (cross_pollinate env agent parsed st).co = st.co := by
  unfold cross_pollinate
  generalize crossPollinateItems agent parsed = items
  induction items with
  | nil => intro st; exact ⟨rfl, rfl, rfl, rfl, rfl⟩
  | cons c rest ih =>
    intro st
    simp only [List.foldl_cons]
    rcases ih (insertSharedRow (takeId env st).2
      { id := (takeId env st).1, content := c, created_by := agent,
        tags := [("cross-agent" : String).data, sessionTag env,
          ("from-" : String).data ++ agent.data],
        emotional_weight := 1/2, importance := 1/2 }) with ⟨h1, h2, h3, h4, h5⟩
    rw [h1, h2, h3, h4, h5]
    rcases insertSharedRow_fields (takeId env st).2
      { id := (takeId env st).1, content := c, created_by := agent,
        tags := [("cross-agent" : String).data, sessionTag env,
          ("from-" : String).data ++ agent.data],
        emotional_weight := 1/2, importance := 1/2 } with ⟨g1, g2, g3, g4, _, g6⟩
    rw [g1, g2, g3, g4, g6]
    exact ⟨rfl, rfl, rfl, rfl, rfl⟩

theorem sleep_finalize_fields (env : Env) (agent : String)
    (sid : Option Nat) (st : St) :
    (sleep_finalize env agent sid st).memories = st.memories ∧
    (sleep_finalize env agent sid st).kv = st.kv ∧
    (sleep_finalize env agent sid st).qhist = st.qhist ∧
    (sleep_finalize env agent sid st).shared = st.shared ∧
    (sleep_finalize env agent sid st).co = st.co := by
  unfold sleep_finalize
  cases sid <;> exact ⟨rfl, rfl, rfl, rfl, rfl⟩

theorem linkCoOccurrences_fields (ids : List Str) (st : St) :
    (linkCoOccurrences ids st).memories = st.memories ∧
    (linkCoOccurrences ids st).kv = st.kv ∧
    (linkCoOccurrences ids st).qhist = st.qhist ∧
    (linkCoOccurrences ids st).shared = st.shared ∧
    (linkCoOccurrences ids st).sessions = st.sessions ∧
    (linkCoOccurrences ids st).rngCursor = st.rngCursor := by
  unfold linkCoOccurrences
  split <;> exact ⟨rfl, rfl, rfl, rfl, rfl, rfl⟩

theorem store_parsed_memories_state (env : Env) (parsed : Parsed) (st : St) :
    (store_parsed_memories env parsed st).1.memories =
        st.memories ++ newMemories env parsed st.rngCursor ∧
    (store_parsed_memories env parsed st).2 =
        newIds env parsed st.rngCursor ∧
    (store_parsed_memories env parsed st).1.kv = st.kv ∧
    (store_parsed_memories env parsed st).1.qhist = st.qhist ∧
    (store_parsed_memories env parsed st).1.shared = st.shared ∧
    (store_parsed_memories env parsed st).1.sessions = st.sessions := by
  unfold store_parsed_memories
  simp only []
  rw [storeItems_state, storeItems_state, storeItems_state]
  simp only []
  refine ⟨?_, ?_, ?_, ?_, ?_, ?_⟩ <;>
    simp only [linkCoOccurrences, newMemories, newIds] <;>
    split <;>
    simp [List.append_assoc, Nat.add_assoc]

theorem mkItems_length {α : Type} (env : Env) (mk : Str → α → Memory)
    (items : List α) : ∀ (base : Nat),
    (mkItems env mk items base).length = items.length := by
  induction items with
  | nil => intro base; rfl
  | cons it rest ih => intro base; simp [mkItems, ih]

theorem mem_mkItems {α : Type} (env : Env) (mk : Str → α → Memory)
    (items : List α) : ∀ (base : Nat) (m : Memory),
    m ∈ mkItems env mk items base → ∃ i it, it ∈ items ∧ m = mk i it := by
  induction items with
  | nil => intro base m hm; cases hm
  | cons it rest ih =>
    intro base m hm
    rcases List.mem_cons.mp hm with h | h
    · exact ⟨genId env.draws base, it, List.mem_cons_self _ _, h⟩
    · obtain ⟨i, it', hit, hm'⟩ := ih (base + 8) m h
      exact ⟨i, it', List.mem_cons_of_mem _ hit, hm'⟩

theorem mkThreadMemory_no_rawtag (env : Env) (mid : Str) (th : ThreadItem) :
    (mkThreadMemory env mid th).tags.contains rawExcerptTag = false := rfl

theorem mkLessonMemory_no_rawtag (env : Env) (mid : Str) (l : Str) :
    (mkLessonMemory env mid l).tags.contains rawExcerptTag = false := rfl

theorem mkFactMemory_no_rawtag (env : Env) (mid : Str) (f : Str) :
    (mkFactMemory env mid f).tags.contains rawExcerptTag = false := rfl

theorem rawFallbackMemory_rawtag (env : Env) (t : Str) (base : Nat) :
    (rawFallbackMemory env t base).tags.contains rawExcerptTag = true := rfl

theorem rawFallbackMemory_mem_rawtag (env : Env) (t : Str) (base : Nat) :
    rawExcerptTag ∈ (rawFallbackMemory env t base).tags := by
  unfold rawFallbackMemory rawExcerptTag
  exact List.mem_cons_of_mem _ (List.mem_cons_self _ _)

theorem newMemories_no_rawtag (env : Env) (parsed : Parsed) (base : Nat) :
    ∀ m ∈ newMemories env parsed base,
      m.tags.contains rawExcerptTag = false := by
  intro m hm
  unfold newMemories at hm
  rcases List.mem_append.mp hm with h | h
  · rcases List.mem_append.mp h with h | h
    · obtain ⟨i, it, _, rfl⟩ := mem_mkItems env _ _ _ _ h
      exact mkThreadMemory_no_rawtag env i it
    · obtain ⟨i, it, _, rfl⟩ := mem_mkItems env _ _ _ _ h
      exact mkLessonMemory_no_rawtag env i it
  · obtain ⟨i, it, _, rfl⟩ := mem_mkItems env _ _ _ _ h
    exact mkFactMemory_no_rawtag env i it

theorem newMemories_length (env : Env) (parsed : Parsed) (base : Nat) :
    (newMemories env parsed base).length =
      parsed.threads.length + parsed.lessons.length + parsed.facts.length := by
  unfold newMemories
  simp [mkItems_length]
  omega

theorem any_eq_any_map_tags (f : List Str → Bool) :
    ∀ (l : List Memory),
      (l.any (fun m => f m.tags)) = ((l.map Memory.tags).any f)
  | [] => rfl
  | m :: rest => by
    simp only [List.any_cons, List.map_cons]
    rw [any_eq_any_map_tags f rest]

theorem any_of_map_tags_eq (f : List Str → Bool) (l₁ l₂ : List Memory)
    (h : l₁.map Memory.tags = l₂.map Memory.tags) :
    (l₁.any (fun m => f m.tags)) = (l₂.any (fun m => f m.tags)) := by
  rw [any_eq_any_map_tags, any_eq_any_map_tags, h]

/-- `get_q_values` snapshot taken by `_sleep_qvalue_update`. -/
theorem sleep_qvalue_update_none (env : Env) (sid : Option Nat)
    (ids : List Str) (st : St) (h : st.kv = none) :
    sleep_qvalue_update env sid ids st = st := by
  unfold sleep_qvalue_update
  rw [h]

theorem sleep_qvalue_update_empty (env : Env) (sid : Option Nat)
    (stored : List Str) (st : St) (ts : Str) (h : st.kv = some ([], ts)) :
    sleep_qvalue_update env sid stored st = st := by
  unfold sleep_qvalue_update
  rw [h]
  rfl

theorem sleep_qvalue_update_some (env : Env) (sid : Option Nat)
    (stored : List Str) (st : St) (ids : List Str) (ts : Str)
    (h : st.kv = some (ids, ts)) (hne : ids ≠ []) :
    sleep_qvalue_update env sid stored st =
      { qUpdateLoop (sid.getD 0) (fun mid => (getQ st mid).getD (1/2))
          (if 0 < stored.length then REWARD_DOWNSTREAM else REWARD_DEAD_END)
          (if 0 < stored.length then ("downstream" : String).data
            else ("dead_end" : String).data) ids st with kv := none } := by
  unfold sleep_qvalue_update
  rw [h]
  simp only [List.isEmpty_iff, decide_eq_true_eq]
  rw [if_neg hne]

theorem dropWhile_eq_self_of_all (p : Char → Bool) :
    ∀ s : Str, (∀ c ∈ s, p c = false) → s.dropWhile p = s
  | [], _ => rfl
  | c :: cs, h => by
    rw [List.dropWhile_cons, h c (List.mem_cons_self c cs)]
    simp

theorem pyStrip_of_all_nonws (s : Str) (h : ∀ c ∈ s, isPyWhitespace c = false) :
    pyStrip s = s := by
  unfold pyStrip
  rw [dropWhile_eq_self_of_all _ s h,
    dropWhile_eq_self_of_all _ s.reverse (fun c hc => h c (List.mem_reverse.mp hc)),
    List.reverse_reverse]

theorem joinNl_singleton (l : Str) : joinNl [l] = l := by
  simp [joinNl, List.intercalate]

theorem meaningfulLines_replicate_a (m : Nat) :
    meaningfulLines (List.replicate (m + 1) 'a') = [List.replicate (m + 1) 'a'] := by
  have hsplit : (List.replicate (m + 1) 'a').splitOn '\n' =
      [List.replicate (m + 1) 'a'] := by
    apply List.splitOnP_eq_single
    intro x hx
    rw [List.eq_of_mem_replicate hx]
    decide
  have hstrip : pyStrip (List.replicate (m + 1) 'a') = List.replicate (m + 1) 'a' :=
    pyStrip_of_all_nonws _ (fun c hc => by rw [List.eq_of_mem_replicate hc]; rfl)
  have hempty : (List.replicate (m + 1) 'a').isEmpty = false := by
    rw [List.replicate_succ]; rfl
  have hnoise : noiseLinePrefixes.any
      (fun p => p.isPrefixOf (List.replicate (m + 1) 'a')) = false := by
    rw [List.replicate_succ]; rfl
  unfold meaningfulLines
  rw [hsplit, List.filterMap_cons, List.filterMap_nil]
  simp only [hstrip, hempty, hnoise]
  rfl

theorem proportionalSample_length (ma mb : Str) (mc : Nat) (t : Str)
    (h5 : 5 ≤ mc) (hl : mc < t.length) :
    (proportionalSample ma mb mc t).length =
      6 * (mc / 5) + ma.length + mb.length := by
  have h2 : ¬ t.length ≤ mc := by omega
  unfold proportionalSample
  rw [if_neg h2]
  simp only [pyTake, pySlice, pyTakeLast]
  rw [if_neg (by omega : ¬ mc / 5 * 2 = 0)]
  simp only [List.length_append, List.length_take, List.length_drop]
  omega

theorem proportionalSample_short (ma mb : Str) (mc : Nat) (t : Str)
    (h : t.length ≤ mc) : proportionalSample ma mb mc t = t := by
  unfold proportionalSample
  rw [if_pos h]

theorem foldl_bumpCo (ps : List (Str × Str)) : ∀ (t : Str × Str → Nat)
    (q : Str × Str),
    (ps.foldl (fun t p => bumpCo t p.1 p.2) t) q = t q + ps.count q := by
  induction ps with
  | nil => intro t q; simp
  | cons p rest ih =>
    intro t q
    simp only [List.foldl_cons]
    rw [ih]
    unfold bumpCo
    rw [show ((p.1, p.2) : Str × Str) = p from rfl]
    by_cases h : q = p
    · rw [if_pos h, List.count_cons]
      simp [h]
      omega
    · rw [if_neg h, List.count_cons]
      have hne : ¬ ((p == q) = true) := by
        simp only [beq_iff_eq]
        exact fun hc => h hc.symm
      simp [hne]

theorem pairblock_length (x : Str) : ∀ (xs : List Str),
    ((xs.map (fun y => [(x, y), (y, x)])).flatten).length = 2 * xs.length := by
  intro xs
  induction xs with
  | nil => rfl
  | cons y ys ih =>
    simp only [List.map_cons, List.flatten_cons, List.length_append, ih,
      List.length_cons]
    simp
    omega

theorem count_flatten_pairblock (x : Str) (q : Str × Str) : ∀ (xs : List Str),
    ((xs.map (fun y => [(x, y), (y, x)])).flatten).count q =
      (xs.map (fun y => (x, y))).count q + (xs.map (fun y => (y, x))).count q := by
  intro xs
  induction xs with
  | nil => rfl
  | cons y ys ih =>
    simp only [List.map_cons, List.flatten_cons, List.count_append,
      List.count_cons, List.count_nil]
    rw [ih]
    omega

theorem count_map_pair_left (x a b : Str) : ∀ (xs : List Str),
    ((xs.map (fun y => (x, y))).count (a, b)) = if a = x then xs.count b else 0 := by
  intro xs
  induction xs with
  | nil => simp
  | cons y ys ih =>
    simp only [List.map_cons, List.count_cons, ih, beq_iff_eq, Prod.mk.injEq]
    by_cases hax : a = x
    · subst hax
      by_cases hby : b = y
      · subst hby
        simp [List.count_cons]
      · simp [hby, List.count_cons]
    · simp [hax]
      exact fun hc => absurd hc.symm hax

theorem count_map_pair_right (x a b : Str) : ∀ (xs : List Str),
    ((xs.map (fun y => (y, x))).count (a, b)) = if b = x then xs.count a else 0 := by
  intro xs
  induction xs with
  | nil => simp
  | cons y ys ih =>
    simp only [List.map_cons, List.count_cons, ih, beq_iff_eq, Prod.mk.injEq]
    by_cases hbx : b = x
    · subst hbx
      by_cases hay : a = y
      · subst hay
        simp [List.count_cons]
      · simp [hay, List.count_cons]
    · simp [hbx]
      exact fun _ hc => hbx hc.symm

theorem mem_coPairs : ∀ (ids : List Str) (p : Str × Str), p ∈ coPairs ids →
    p.1 ∈ ids ∧ p.2 ∈ ids ∧ (ids.Nodup → p.1 ≠ p.2) := by
  intro ids
  induction ids with
  | nil => intro p hp; cases hp
  | cons x xs ih =>
    intro p hp
    unfold coPairs at hp
    rcases List.mem_append.mp hp with h | h
    · obtain ⟨l, hl, hpl⟩ := List.mem_flatten.mp h
      obtain ⟨y, hy, rfl⟩ := List.mem_map.mp hl
      have hxy : ∀ hnd : (x :: xs).Nodup, x ≠ y := by
        intro hnd hc
        exact (List.nodup_cons.mp hnd).1 (hc ▸ hy)
      rcases List.mem_cons.mp hpl with rfl | hpl'
      · exact ⟨List.mem_cons_self _ _, List.mem_cons_of_mem _ hy,
          fun hnd => hxy hnd⟩
      · rw [List.mem_singleton.mp hpl']
        exact ⟨List.mem_cons_of_mem _ hy, List.mem_cons_self _ _,
          fun hnd hc => hxy hnd hc.symm⟩
    · obtain ⟨h1, h2, h3⟩ := ih p h
      exact ⟨List.mem_cons_of_mem _ h1, List.mem_cons_of_mem _ h2,
        fun hnd => h3 (List.nodup_cons.mp hnd).2⟩

theorem coPairs_count_zero (ids : List Str) (p : Str × Str)
    (h : p.1 ∉ ids ∨ p.2 ∉ ids) : (coPairs ids).count p = 0 := by
  apply List.count_eq_zero.mpr
  intro hm
  obtain ⟨h1, h2, _⟩ := mem_coPairs ids p hm
  rcases h with h | h
  · exact h h1
  · exact h h2

theorem coPairs_count_diag (ids : List Str) (h : ids.Nodup) (a : Str) :
    (coPairs ids).count (a, a) = 0 := by
  apply List.count_eq_zero.mpr
  intro hm
  exact (mem_coPairs ids _ hm).2.2 h rfl

theorem count_one_of_nodup_mem : ∀ (l : List Str) (a : Str),
    l.Nodup → a ∈ l → l.count a = 1 := by
  intro l
  induction l with
  | nil => intro a _ ha; cases ha
  | cons x xs ih =>
    intro a hnd ha
    obtain ⟨hx, hnd'⟩ := List.nodup_cons.mp hnd
    rw [List.count_cons]
    rcases List.mem_cons.mp ha with rfl | ha'
    · rw [List.count_eq_zero.mpr hx]
      simp
    · rw [ih a hnd' ha']
      have hne : ¬ ((x == a) = true) := by
        simp only [beq_iff_eq]
        intro hc
        exact hx (by rw [hc]; exact ha')
      simp [hne]

theorem coPairs_count_one : ∀ (ids : List Str), ids.Nodup → ∀ a b : Str,
    a ∈ ids → b ∈ ids → a ≠ b → (coPairs ids).count (a, b) = 1 := by
  intro ids
  induction ids with
  | nil => intro _ a b ha; cases ha
  | cons x xs ih =>
    intro hnd a b ha hb hab
    obtain ⟨hx, hnd'⟩ := List.nodup_cons.mp hnd
    unfold coPairs
    rw [List.count_append, count_flatten_pairblock, count_map_pair_left,
      count_map_pair_right]
    rcases List.mem_cons.mp ha with rfl | ha'
    · have hbx : b ≠ a := fun hc => hab hc.symm
      have hb' : b ∈ xs := by
        rcases List.mem_cons.mp hb with rfl | hb'
        · exact absurd rfl hab
        · exact hb'
      rw [if_pos rfl, if_neg hbx, count_one_of_nodup_mem xs b hnd' hb',
        coPairs_count_zero xs (a, b) (Or.inl hx)]
    · rcases List.mem_cons.mp hb with rfl | hb'
      · have hax : a ≠ b := hab
        rw [if_neg hax, if_pos rfl, count_one_of_nodup_mem xs a hnd' ha',
          coPairs_count_zero xs (a, b) (Or.inr hx)]
      · have hax : a ≠ x := fun hc => hx (hc ▸ ha')
        have hbx : b ≠ x := fun hc => hx (hc ▸ hb')
        rw [if_neg hax, if_neg hbx, ih hnd' a b ha' hb' hab]

theorem coPairs_length : ∀ (ids : List Str),
    (coPairs ids).length = ids.length * (ids.length - 1) := by
  intro ids
  induction ids with
  | nil => rfl
  | cons x xs ih =>
    unfold coPairs
    rw [List.length_append, ih, pairblock_length, List.length_cons]
    cases hn : xs.length with
    | zero => simp
    | succ m =>
      simp only [Nat.succ_sub_one, Nat.add_sub_cancel]
      ring

theorem store_parsed_memories_co (env : Env) (parsed : Parsed) (st : St) :
    (store_parsed_memories env parsed st).1.co =
      if 1 < (newIds env parsed st.rngCursor).length then
        fun p => st.co p + (coPairs (newIds env parsed st.rngCursor)).count p
      else st.co := by
  unfold store_parsed_memories
  simp only []
  rw [storeItems_state, storeItems_state, storeItems_state]
  simp only [newIds]
  unfold linkCoOccurrences
  split
  · funext p
    simp [foldl_bumpCo]
  · rfl

theorem sleep_qvalue_update_map_tags (env : Env) (sid : Option Nat)
    (stored : List Str) (st : St) :
    (sleep_qvalue_update env sid stored st).memories.map Memory.tags =
      st.memories.map Memory.tags := by
  unfold sleep_qvalue_update
  split
  · rfl
  · simp only []
    split
    · rfl
    · rw [qUpdateLoop_state]
      simp only [List.map_map]
      exact List.map_congr_left
        (fun m _ => (qApply_preserves _ _ _ m).2.1)

theorem isPrefixOf_self : ∀ (l : Str), l.isPrefixOf l = true
  | [] => rfl
  | c :: rest => by
    simp only [List.isPrefixOf, Bool.and_eq_true, beq_self_eq_true]
    exact ⟨trivial, isPrefixOf_self rest⟩

theorem isSubstr_append_right (p : Str) : ∀ (a : Str), isSubstr p (a ++ p) = true
  | [] => by
    cases p with
    | nil => rfl
    | cons c cs =>
      show isSubstr (c :: cs) (c :: cs) = true
      unfold isSubstr
      rw [isPrefixOf_self]
      rfl
  | c :: a' => by
    show isSubstr p (c :: (a' ++ p)) = true
    unfold isSubstr
    rw [isSubstr_append_right p a']
    simp

theorem idsFrom_length (env : Env) (n : Nat) : ∀ (base : Nat),
    (idsFrom env n base).length = n := by
  induction n with
  | zero => intro base; rfl
  | succ k ih => intro base; simp [idsFrom, ih]

theorem newIds_length (env : Env) (parsed : Parsed) (base : Nat) :
    (newIds env parsed base).length =
      parsed.threads.length + parsed.lessons.length + parsed.facts.length := by
  unfold newIds
  simp [idsFrom_length]
  omega

theorem drop_any_tags_congr (f : List Str → Bool) (n : Nat) (l₁ l₂ : List Memory)
    (h : l₁.map Memory.tags = l₂.map Memory.tags) :
    ((l₁.drop n).any (fun m => f m.tags)) = ((l₂.drop n).any (fun m => f m.tags)) := by
  apply any_of_map_tags_eq
  rw [List.map_drop, List.map_drop, h]

-- ============================================================
-- Claim C5 — transcript extractor sampling
-- ============================================================

/-- C5 counterexample: on a meaningful text of 10001 characters the
extractor emits 12050 characters — the middle slice is `text[mid-chunk :
mid+chunk]`, i.e. 40% of `max_chars`, not the claimed 20% — which exceeds
the claimed bound `max_chars + |markers| = 10050`. -/
theorem C5_counterexample :
    (extract_from_log [] (List.replicate 10001 'a') 10000).length = 12050 ∧
    ¬ ((extract_from_log [] (List.replicate 10001 'a') 10000).length ≤
        10000 + (logElisionMarker1.length + logElisionMarker2.length)) := by
  have hstrip : pyStrip (List.replicate 10001 'a') = List.replicate 10001 'a' :=
    pyStrip_of_all_nonws _ (fun c hc => by rw [List.eq_of_mem_replicate hc]; rfl)
  have hm : meaningfulLines (List.replicate 10001 'a') =
      [List.replicate 10001 'a'] := by
    have := meaningfulLines_replicate_a 10000
    norm_num at this
    exact this
  have hmain : extract_from_log [] (List.replicate 10001 'a') 10000 =
      proportionalSample logElisionMarker1 logElisionMarker2 10000
        (List.replicate 10001 'a') := by
    unfold extract_from_log
    rw [hstrip, if_neg (by decide), hm, joinNl_singleton]
  have hlen : (extract_from_log [] (List.replicate 10001 'a') 10000).length =
      12050 := by
    rw [hmain, proportionalSample_length _ _ _ _ (by norm_num)
      (by rw [List.length_replicate]; norm_num)]
    norm_num
    rfl
  refine ⟨hlen, ?_⟩
  rw [hlen]
  decide

/-- C5 (amended): for plain-text transcripts the extractor returns the
meaningful text whole when it is at most `max_chars` (default 10000) long and
empty output on empty input, but an over-long text yields the first 40%, the
middle **40%** (not 20%), and the last 40%, joined by the two elision
markers, for a total length of exactly `6·(max_chars/5) + |markers|` = 12050
(and 12018 for the JSONL variant) rather than at most `max_chars +
|markers|`. -/
theorem C5_theorem (entries : List JsonEntry) (content : Str)
    (hplain : ¬ (pyStrip content).head? = some (Char.ofNat 123)) :
    ((joinNl (meaningfulLines content)).length ≤ 10000 →
        extract_from_log entries content 10000 = joinNl (meaningfulLines content)) ∧
    (10000 < (joinNl (meaningfulLines content)).length →
        extract_from_log entries content 10000 =
          pyTake 4000 (joinNl (meaningfulLines content)) ++ logElisionMarker1 ++
            pySlice ((joinNl (meaningfulLines content)).length / 2 - 2000)
              ((joinNl (meaningfulLines content)).length / 2 + 2000)
              (joinNl (meaningfulLines content)) ++ logElisionMarker2 ++
            pyTakeLast 4000 (joinNl (meaningfulLines content)) ∧
        (extract_from_log entries content 10000).length = 12050) ∧
    (content = [] → extract_from_log entries content 10000 = []) ∧
    (∀ es : List JsonEntry,
      10000 < (joinNl ((es.map entryTexts).flatten)).length →
        (extract_from_jsonl es 10000).length = 12018) := by
  have hmain : extract_from_log entries content 10000 =
      proportionalSample logElisionMarker1 logElisionMarker2 10000
        (joinNl (meaningfulLines content)) := by
    unfold extract_from_log
    rw [if_neg hplain]
  refine ⟨?_, ?_, ?_, ?_⟩
  · intro h
    rw [hmain, proportionalSample_short _ _ _ _ h]
  · intro h
    constructor
    · rw [hmain]
      unfold proportionalSample
      rw [if_neg (by omega)]
    · rw [hmain, proportionalSample_length _ _ _ _ (by norm_num) h]
      norm_num
      rfl
  · intro h
    subst h
    rw [hmain]
    decide
  · intro es h
    unfold extract_from_jsonl
    rw [proportionalSample_length _ _ _ _ (by norm_num) h]
    norm_num
    rfl

/-- C5 witness: a five-character meaningful text is returned whole. -/
theorem C5_witness :
    extract_from_log [] ("hello" : String).data 10000 =
      joinNl (meaningfulLines ("hello" : String).data) :=
  (C5_theorem [] ("hello" : String).data (by decide)).1 (by decide)

-- ============================================================
-- Claim C1 — cross-agent share opinion filter
-- ============================================================

/-- C1 counterexample: after the sleep of agent `debater` the SHARED table
holds exactly one row, and its content does contain an opinion-vocabulary
word — the author prefix `[The Great Debater]` contains `debate` — although
the parsed fact itself is opinion-free.  So a SHARED row whose content
contains an opinion word does exist. -/
theorem C1_counterexample :
    ((sleep envC1 "debater" stEmpty).1.shared.map
      (fun r => is_debate_opinion r.content)) = [true] := by
  decide

/-- C1 (amended): the block filter is applied to the parsed item's own
lowercased text, not to the final stored content: every row added to SHARED
by `_cross_pollinate` originates from a thread, lesson or fact whose checked
text contains no opinion-vocabulary word, while the stored content may still
contain one via the author display-name prefix. -/
theorem C1_theorem (env : Env) (agent : String) (parsed : Parsed) (st : St)
    (r : SharedRow) (hr : r ∈ (cross_pollinate env agent parsed st).shared)
    (hold : r ∉ st.shared) :
    r.content ∈ crossPollinateItems agent parsed ∧
    ((∃ th, th ∈ parsed.threads ∧ r.content = threadShareContent agent th ∧
        is_debate_opinion (pyLower (th.summary ++ [' '] ++ th.name)) = false) ∨
     (∃ l, l ∈ parsed.lessons ∧ r.content = lessonShareContent agent l ∧
        is_debate_opinion (pyLower l) = false) ∨
     (∃ f, f ∈ parsed.facts ∧ r.content = factShareContent agent f ∧
        is_debate_opinion (pyLower f) = false)) := by
  have hmem : r.content ∈ crossPollinateItems agent parsed := by
    have key : ∀ (items : List Str) (st' : St),
        r ∈ ((items.foldl (fun st content =>
          let p := takeId env st
          insertSharedRow p.2
            { id := p.1, content := content, created_by := agent,
              tags := [("cross-agent" : String).data, sessionTag env,
                ("from-" : String).data ++ agent.data],
              emotional_weight := 1/2, importance := 1/2 }) st').shared) →
        r ∈ st'.shared ∨ r.content ∈ items := by
      intro items
      induction items with
      | nil => intro st' h; exact Or.inl h
      | cons c rest ih =>
        intro st' h
        simp only [List.foldl_cons] at h
        rcases ih _ h with h' | h'
        · unfold insertSharedRow at h'
          by_cases hc : (takeId env st').2.shared.any
              (fun q => q.id = genId env.draws st'.rngCursor)
          · simp only [takeId] at h' hc
            rw [if_pos hc] at h'
            exact Or.inl h'
          · simp only [takeId] at h' hc
            rw [if_neg hc] at h'
            rcases List.mem_append.mp h' with h'' | h''
            · exact Or.inl h''
            · right
              rw [List.mem_singleton.mp h'']
              exact List.mem_cons_self _ _
        · exact Or.inr (List.mem_cons_of_mem _ h')
    unfold cross_pollinate at hr
    rcases key _ _ hr with h | h
    · exact absurd h hold
    · exact h
  refine ⟨hmem, ?_⟩
  unfold crossPollinateItems at hmem
  simp only [] at hmem
  rcases List.mem_append.mp hmem with h | h
  · rcases List.mem_append.mp h with h | h
    · left
      obtain ⟨th, hth, hsome⟩ := List.mem_filterMap.mp h
      split_ifs at hsome with h1 h2
      exact ⟨th, hth, (Option.some_inj.mp hsome).symm, by simpa using h1⟩
    · right; left
      obtain ⟨l, hl, hsome⟩ := List.mem_filterMap.mp h
      split_ifs at hsome with h1 h2
      exact ⟨l, hl, (Option.some_inj.mp hsome).symm, by simpa using h1⟩
  · right; right
    obtain ⟨f, hf, hsome⟩ := List.mem_filterMap.mp h
    split_ifs at hsome with h1 h2
    exact ⟨f, hf, (Option.some_inj.mp hsome).symm, by simpa using h1⟩

/-- C1 witness: a platform fact shared by `max` originates from an
opinion-free item. -/
theorem C1_witness :
    rowC1.content ∈ crossPollinateItems "max" parsedC1w ∧
    ((∃ th, th ∈ parsedC1w.threads ∧
        rowC1.content = threadShareContent "max" th ∧
        is_debate_opinion (pyLower (th.summary ++ [' '] ++ th.name)) = false) ∨
     (∃ l, l ∈ parsedC1w.lessons ∧ rowC1.content = lessonShareContent "max" l ∧
        is_debate_opinion (pyLower l) = false) ∨
     (∃ f, f ∈ parsedC1w.facts ∧ rowC1.content = factShareContent "max" f ∧
        is_debate_opinion (pyLower f) = false)) :=
  C1_theorem baseEnv "max" parsedC1w stEmpty rowC1
    (by
      rw [show (cross_pollinate baseEnv "max" parsedC1w stEmpty).shared = [rowC1] from rfl]
      exact List.mem_singleton_self _)
    (List.not_mem_nil _)

-- ============================================================
-- Claim C2 — sleep exit status
-- ============================================================

/-- C2 counterexample: when the summariser raises, sleep stores one
(raw-fallback) memory and still returns failure, so the command exits 1
although a new memory was stored. -/
theorem C2_counterexample :
    (sleep envC2 "max" stEmpty).1.memories.length = 1 ∧
    (sleep envC2 "max" stEmpty).2 = false := by
  decide

/-- C2 (amended): the sleep command exits 0 iff the summariser+parser
pipeline stored at least one parsed (non-`raw-excerpt`) memory; a run that
stores only the raw-fallback memory exits 1 (assuming the external decay
maintenance preserves tags). -/
theorem C2_theorem (env : Env) (agent : String) (st : St)
    (hmaint : ∀ m : Memory, (env.maintain m).tags = m.tags) :
    ((sleep env agent st).2 = true) ↔
      (((sleep env agent st).1.memories.drop st.memories.length).any
        (fun m => ! m.tags.contains rawExcerptTag)) = true := by
  unfold sleep
  cases htr : env.transcript with
  | none =>
    simp [List.drop_length]
  | some content =>
    simp only []
    split <;> rename_i h50
    · rw [(sleep_finalize_fields env agent (some st.sessions.length) _).1]
      simp [List.drop_length]
    · cases hsum : env.summarize with
      | none =>
        rw [(sleep_finalize_fields env agent (some st.sessions.length) _).1,
          store_raw_fallback_eq]
        simp [List.drop_left, rawFallbackMemory_mem_rawtag]
      | some raw =>
        simp only []
        split <;> rename_i h30
        · rw [(sleep_finalize_fields env agent (some st.sessions.length) _).1,
            store_raw_fallback_eq]
          simp [List.drop_left, rawFallbackMemory_mem_rawtag]
        · split <;> rename_i hparsed
          · rw [(sleep_finalize_fields env agent (some st.sessions.length) _).1,
              store_raw_fallback_eq]
            simp [List.drop_left, rawFallbackMemory_mem_rawtag]
          · refine ⟨fun _ => ?_, fun _ => rfl⟩
            rw [(sleep_finalize_fields env agent (some st.sessions.length) _).1]
            have hts : ((sleep_qvalue_update env (some st.sessions.length)
                  (store_parsed_memories env env.parsed
                    { st with sessions := st.sessions ++
                      [{ sid := st.sessions.length, startedAt := env.now,
                         endedAt := none }] }).2
                  (cross_pollinate env agent env.parsed
                    (store_parsed_memories env env.parsed
                      { st with sessions := st.sessions ++
                        [{ sid := st.sessions.length, startedAt := env.now,
                           endedAt := none }] }).1)).memories.map
                env.maintain).map Memory.tags =
                (st.memories ++ newMemories env env.parsed st.rngCursor).map
                  Memory.tags := by
              rw [List.map_map,
                List.map_congr_left (fun m _ =>
                  show (Memory.tags ∘ env.maintain) m = Memory.tags m from
                    hmaint m),
                sleep_qvalue_update_map_tags,
                (cross_pollinate_fields env agent env.parsed _).1,
                (store_parsed_memories_state env env.parsed _).1]
            have hcongr := drop_any_tags_congr
              (fun tg => ! tg.contains rawExcerptTag) st.memories.length _ _ hts
            refine Eq.trans hcongr ?_
            rw [List.drop_left]
            have hne : newMemories env env.parsed st.rngCursor ≠ [] := by
              intro hEq
              have hlen := newMemories_length env env.parsed st.rngCursor
              rw [hEq] at hlen
              simp only [List.length_nil] at hlen
              simp only [Bool.and_eq_true, List.isEmpty_iff] at hparsed
              have ht : env.parsed.threads = [] := List.length_eq_zero.mp (by omega)
              have hl : env.parsed.lessons = [] := List.length_eq_zero.mp (by omega)
              have hf : env.parsed.facts = [] := List.length_eq_zero.mp (by omega)
              exact hparsed ⟨⟨ht, hl⟩, hf⟩
            cases hN : newMemories env env.parsed st.rngCursor with
            | nil => exact absurd hN hne
            | cons m rest =>
              have hm := newMemories_no_rawtag env env.parsed st.rngCursor m
                (hN ▸ List.mem_cons_self m rest)
              simp only [List.any_cons, Bool.or_eq_true, Bool.not_eq_true']
              exact Or.inl (by simpa using hm)

/-- C2 witness: the summariser-failure run satisfies the amended
equivalence (both sides false: it exits 1 and stores only the raw
fallback). -/
theorem C2_witness :
    ((sleep envC2 "max" stEmpty).2 = true) ↔
      (((sleep envC2 "max" stEmpty).1.memories.drop stEmpty.memories.length).any
        (fun m => ! m.tags.contains rawExcerptTag)) = true :=
  C2_theorem envC2 "max" stEmpty (fun _ => rfl)

-- ============================================================
-- Claim C3 — Q-value credit assignment at sleep
-- ============================================================

/-- C3 counterexample: a sleep that creates zero new memories leaves the
previously-recalled memory entirely untouched — no `q_value_history` row
(in particular none with reward_source `dead_end`) is appended, the Q-value
stays 9/10 > 0.5, and the KV slot is not even cleared — because
`_sleep_qvalue_update` is only invoked on the successful-store path. -/
theorem C3_counterexample :
    (sleep envC3 "max" stC3).1.memories.length = stC3.memories.length ∧
    (sleep envC3 "max" stC3).1.qhist = [] ∧
    ((sleep envC3 "max" stC3).1.memories.map Memory.q_value) = [9/10] ∧
    ¬ ((9 : ℚ)/10 ≤ 1/2) ∧
    (sleep envC3 "max" stC3).1.kv = stC3.kv := by
  refine ⟨by decide, by decide, by rfl, by norm_num, by decide⟩

/-- C3 (amended): the Q-value updater only runs on the successful-store
path, where the stored-ids list is necessarily non-empty, so every id in
`.wake_retrieved_ids` receives exactly one `REWARD_DOWNSTREAM` update with a
`downstream` history row; on every failing path (zero parsed memories, raw
fallback included) no update happens at all: the history is unchanged — no
`dead_end` rows — and all pre-existing Q-values keep their value (hence stay
at 0.5 when they were 0.5). -/
theorem C3_theorem (env : Env) (agent : String) (st : St) (ids : List Str)
    (ts : Str) (hkv : st.kv = some (ids, ts)) (hne : ids ≠ []) :
    ((sleep env agent st).2 = true →
      ∃ qv : Str → ℚ,
        (sleep env agent st).1.qhist = st.qhist ++
          ids.map (qRowOf st.sessions.length qv REWARD_DOWNSTREAM
            (("downstream" : String).data)) ∧
        ∀ row ∈ (sleep env agent st).1.qhist.drop st.qhist.length,
          row.reward = REWARD_DOWNSTREAM ∧
          row.reward_source = ("downstream" : String).data ∧
          row.new_q = update_q row.old_q REWARD_DOWNSTREAM) ∧
    ((sleep env agent st).2 = false →
      (sleep env agent st).1.qhist = st.qhist ∧
      ((sleep env agent st).1.memories.take st.memories.length).map
          Memory.q_value =
        st.memories.map Memory.q_value) := by
  unfold sleep
  cases htr : env.transcript with
  | none =>
    refine ⟨fun h => absurd h (by simp), fun _ => ⟨rfl, ?_⟩⟩
    rw [List.take_length]
  | some content =>
    simp only []
    split <;> rename_i h50
    · refine ⟨fun h => absurd h (by simp), fun _ => ⟨?_, ?_⟩⟩
      · rw [(sleep_finalize_fields env agent (some st.sessions.length) _).2.2.1]
      · rw [(sleep_finalize_fields env agent (some st.sessions.length) _).1]
        rw [show ({ st with sessions := st.sessions ++
          [{ sid := st.sessions.length, startedAt := env.now,
             endedAt := none }] } : St).memories = st.memories from rfl,
          List.take_length]
    · cases hsum : env.summarize with
      | none =>
        refine ⟨fun h => absurd h (by simp), fun _ => ⟨?_, ?_⟩⟩
        · rw [(sleep_finalize_fields env agent (some st.sessions.length) _).2.2.1,
            store_raw_fallback_eq]
        · rw [(sleep_finalize_fields env agent (some st.sessions.length) _).1,
            store_raw_fallback_eq]
          simp only []
          rw [List.take_left]
      | some raw =>
        simp only []
        split <;> rename_i h30
        · refine ⟨fun h => absurd h (by simp), fun _ => ⟨?_, ?_⟩⟩
          · rw [(sleep_finalize_fields env agent (some st.sessions.length) _).2.2.1,
              store_raw_fallback_eq]
          · rw [(sleep_finalize_fields env agent (some st.sessions.length) _).1,
              store_raw_fallback_eq]
            simp only []
            rw [List.take_left]
        · split <;> rename_i hparsed
          · refine ⟨fun h => absurd h (by simp), fun _ => ⟨?_, ?_⟩⟩
            · rw [(sleep_finalize_fields env agent (some st.sessions.length) _).2.2.1,
                store_raw_fallback_eq]
            · rw [(sleep_finalize_fields env agent (some st.sessions.length) _).1,
                store_raw_fallback_eq]
              simp only []
              rw [List.take_left]
          · refine ⟨fun _ => ?_, fun h => absurd h (by simp)⟩
            have hkv' : (cross_pollinate env agent env.parsed
                (store_parsed_memories env env.parsed
                  { st with sessions := st.sessions ++
                    [{ sid := st.sessions.length, startedAt := env.now,
                       endedAt := none }] }).1).kv = some (ids, ts) := by
              rw [(cross_pollinate_fields env agent env.parsed _).2.1,
                (store_parsed_memories_state env env.parsed _).2.2.1]
              exact hkv
            have hlen : 0 < (store_parsed_memories env env.parsed
                { st with sessions := st.sessions ++
                  [{ sid := st.sessions.length, startedAt := env.now,
                     endedAt := none }] }).2.length := by
              rw [(store_parsed_memories_state env env.parsed _).2.1,
                newIds_length]
              simp only [Bool.and_eq_true, List.isEmpty_iff] at hparsed
              rcases List.eq_nil_or_concat env.parsed.threads with h | ⟨l', a, h⟩
              · rcases List.eq_nil_or_concat env.parsed.lessons with h2 | ⟨l2', a2, h2⟩
                · rcases List.eq_nil_or_concat env.parsed.facts with h3 | ⟨l3', a3, h3⟩
                  · exact absurd ⟨⟨h, h2⟩, h3⟩ hparsed
                  · simp [h3]
                · simp [h2]
              · simp [h]
            refine ⟨fun mid => (getQ (cross_pollinate env agent env.parsed
              (store_parsed_memories env env.parsed
                { st with sessions := st.sessions ++
                  [{ sid := st.sessions.length, startedAt := env.now,
                     endedAt := none }] }).1) mid).getD (1/2), ?_, ?_⟩
            · rw [(sleep_finalize_fields env agent (some st.sessions.length) _).2.2.1]
              show ((sleep_qvalue_update env (some st.sessions.length) _ _)).qhist = _
              rw [sleep_qvalue_update_some env (some st.sessions.length) _ _ ids ts
                hkv' hne]
              simp only []
              rw [qUpdateLoop_state]
              simp only [if_pos hlen]
              rw [(cross_pollinate_fields env agent env.parsed _).2.2.1,
                (store_parsed_memories_state env env.parsed _).2.2.2.1]
              rfl
            · intro row hrow
              rw [(sleep_finalize_fields env agent (some st.sessions.length) _).2.2.1] at hrow
              revert hrow
              show row ∈ ((sleep_qvalue_update env (some st.sessions.length) _ _)).qhist.drop
                st.qhist.length → _
              rw [sleep_qvalue_update_some env (some st.sessions.length) _ _ ids ts
                hkv' hne]
              simp only []
              rw [qUpdateLoop_state]
              simp only [if_pos hlen]
              rw [(cross_pollinate_fields env agent env.parsed _).2.2.1,
                (store_parsed_memories_state env env.parsed _).2.2.2.1]
              rw [show ({ st with sessions := st.sessions ++
                [{ sid := st.sessions.length, startedAt := env.now,
                   endedAt := none }] } : St).qhist = st.qhist from rfl,
                List.drop_left]
              intro hrow
              obtain ⟨mid, _, rfl⟩ := List.mem_map.mp hrow
              exact ⟨rfl, rfl, rfl⟩

/-- C3 witness: a successful sleep over a state whose KV slot holds one id
appends exactly one downstream history row. -/
theorem C3_witness :
    ((sleep envOk "max" stC3).2 = true →
      ∃ qv : Str → ℚ,
        (sleep envOk "max" stC3).1.qhist = stC3.qhist ++
          [("abcdefgh" : String).data].map (qRowOf stC3.sessions.length qv
            REWARD_DOWNSTREAM (("downstream" : String).data)) ∧
        ∀ row ∈ (sleep envOk "max" stC3).1.qhist.drop stC3.qhist.length,
          row.reward = REWARD_DOWNSTREAM ∧
          row.reward_source = ("downstream" : String).data ∧
          row.new_q = update_q row.old_q REWARD_DOWNSTREAM) ∧
    ((sleep envOk "max" stC3).2 = false →
      (sleep envOk "max" stC3).1.qhist = stC3.qhist ∧
      ((sleep envOk "max" stC3).1.memories.take stC3.memories.length).map
          Memory.q_value =
        stC3.memories.map Memory.q_value) :=
  C3_theorem envOk "max" stC3 [("abcdefgh" : String).data] baseEnv.nowIso
    rfl (by decide)

-- ============================================================
-- Claim C4 — KV slot across the wake/sleep pair
-- ============================================================

/-- C4 counterexample: wake writes the recalled id to `.wake_retrieved_ids`,
but a sleep that completes without storing (short transcript) leaves the
slot populated — it is cleared only on the successful-store path. -/
theorem C4_counterexample :
    (wake baseEnv "max" stC3).2.kv =
      some ([("abcdefgh" : String).data], baseEnv.nowIso) ∧
    (sleep envC3 "max" (wake baseEnv "max" stC3).2).2 = false ∧
    (sleep envC3 "max" (wake baseEnv "max" stC3).2).1.kv =
      some ([("abcdefgh" : String).data], baseEnv.nowIso) := by
  refine ⟨by decide, by decide, by decide⟩

/-- C4 (amended): after a wake over a non-empty namespace the KV slot holds
the deduplicated list of all ids collected during preamble assembly (recent,
core and lesson-query ids — including lessons whose line was suppressed as a
duplicate) with the ISO timestamp; a following sleep clears the slot only
when it stores parsed memories and the recorded id list is non-empty; a
failing sleep (and a sleep finding an empty recorded list) leaves the slot
unchanged. -/
theorem C4_theorem (env : Env) (agent : String) (st : St) :
    (st.memories.length ≠ 0 →
      (wake env agent st).2.kv = some ((wakeRecalled st).dedup, env.nowIso)) ∧
    (∀ ids ts, st.kv = some (ids, ts) → ids ≠ [] →
      (sleep env agent st).2 = true → (sleep env agent st).1.kv = none) ∧
    ((sleep env agent st).2 = false → (sleep env agent st).1.kv = st.kv) ∧
    (∀ ts, st.kv = some ([], ts) → (sleep env agent st).1.kv = st.kv) := by
  refine ⟨?_, ?_⟩
  · intro hne
    unfold wake
    rw [if_neg hne]
    rfl
  · unfold sleep
    cases htr : env.transcript with
    | none =>
      exact ⟨fun ids ts _ _ h => absurd h (by simp), fun _ => rfl,
        fun ts _ => rfl⟩
    | some content =>
      simp only []
      split <;> rename_i h50
      · refine ⟨fun ids ts _ _ h => absurd h (by simp), fun _ => ?_,
          fun ts _ => ?_⟩ <;>
          · rw [(sleep_finalize_fields env agent (some st.sessions.length) _).2.1]
      · cases hsum : env.summarize with
        | none =>
          refine ⟨fun ids ts _ _ h => absurd h (by simp), fun _ => ?_,
            fun ts _ => ?_⟩ <;>
            · rw [(sleep_finalize_fields env agent (some st.sessions.length) _).2.1,
                store_raw_fallback_eq]
        | some raw =>
          simp only []
          split <;> rename_i h30
          · refine ⟨fun ids ts _ _ h => absurd h (by simp), fun _ => ?_,
              fun ts _ => ?_⟩ <;>
              · rw [(sleep_finalize_fields env agent (some st.sessions.length) _).2.1,
                  store_raw_fallback_eq]
          · split <;> rename_i hparsed
            · refine ⟨fun ids ts _ _ h => absurd h (by simp), fun _ => ?_,
                fun ts _ => ?_⟩ <;>
                · rw [(sleep_finalize_fields env agent (some st.sessions.length) _).2.1,
                    store_raw_fallback_eq]
            · refine ⟨?_, fun h => absurd h (by simp), ?_⟩
              · intro ids ts hkv hne _
                rw [(sleep_finalize_fields env agent (some st.sessions.length) _).2.1]
                have hkv' : (cross_pollinate env agent env.parsed
                    (store_parsed_memories env env.parsed
                      { st with sessions := st.sessions ++
                        [{ sid := st.sessions.length, startedAt := env.now,
                           endedAt := none }] }).1).kv = some (ids, ts) := by
                  rw [(cross_pollinate_fields env agent env.parsed _).2.1,
                    (store_parsed_memories_state env env.parsed _).2.2.1]
                  exact hkv
                show (sleep_qvalue_update env (some st.sessions.length) _ _).kv = none
                rw [sleep_qvalue_update_some env (some st.sessions.length) _ _
                  ids ts hkv' hne]
              · intro ts hkv
                rw [(sleep_finalize_fields env agent (some st.sessions.length) _).2.1]
                have hkv' : (cross_pollinate env agent env.parsed
                    (store_parsed_memories env env.parsed
                      { st with sessions := st.sessions ++
                        [{ sid := st.sessions.length, startedAt := env.now,
                           endedAt := none }] }).1).kv = some ([], ts) := by
                  rw [(cross_pollinate_fields env agent env.parsed _).2.1,
                    (store_parsed_memories_state env env.parsed _).2.2.1]
                  exact hkv
                show (sleep_qvalue_update env (some st.sessions.length) _ _).kv = st.kv
                rw [sleep_qvalue_update_empty env (some st.sessions.length) _ _
                  ts hkv', hkv']
                exact hkv.symm

/-- C4 witness: on a one-memory namespace the wake KV slot holds the single
recalled id, and a following successful sleep clears it. -/
theorem C4_witness :
    (wake baseEnv "max" stC3).2.kv =
      some ((wakeRecalled stC3).dedup, baseEnv.nowIso) ∧
    (sleep envOk "max" stC3).1.kv = none :=
  ⟨(C4_theorem baseEnv "max" stC3).1 (by decide),
   (C4_theorem envOk "max" stC3).2.1 [("abcdefgh" : String).data]
     baseEnv.nowIso rfl (by decide) (by decide)⟩

-- ============================================================
-- Claim C6 — raw-fallback memory
-- ============================================================

/-- C6 counterexample: with 60 characters of extracted text (over the
50-character floor but at most 1200) the summariser-failure fallback stores
the text whole, so the stored content does not contain the first-500 and
last-500 characters joined by an elision marker.  The list maps each stored
memory to the marker-joined containment test; it is `[false]`. -/
theorem C6_counterexample :
    ((sleep envC2 "max" stEmpty).1.memories.map (fun m =>
      isSubstr (pyTake 500 (List.replicate 60 'a') ++
        ("\n\n[...]\n\n" : String).data ++
        pyTakeLast 500 (List.replicate 60 'a')) m.content)) = [false] := by
  decide

/-- C6 (amended): whenever the transcript exists, the extracted text is at
least 50 characters, and the run fails (summariser raised, unusable output,
or empty parse), sleep stores exactly one raw-fallback memory with tags
{session-summary, raw-excerpt, session-DATE}, emotional_weight 0.3 and
importance 0.3; its content contains first-500 + elision + last-500 only
when the extracted text exceeds 1200 characters, and otherwise contains the
whole extracted text verbatim. -/
theorem C6_theorem (env : Env) (agent : String) (st : St) (content : Str)
    (htr : env.transcript = some content)
    (hlen : ¬ (extract_from_log env.jsonlEntries content 10000).length < 50)
    (hflag : (sleep env agent st).2 = false) :
    (sleep env agent st).1.memories =
      st.memories ++ [rawFallbackMemory env
        (extract_from_log env.jsonlEntries content 10000) st.rngCursor] ∧
    (rawFallbackMemory env (extract_from_log env.jsonlEntries content 10000)
        st.rngCursor).tags =
      [("session-summary" : String).data, rawExcerptTag, sessionTag env] ∧
    (rawFallbackMemory env (extract_from_log env.jsonlEntries content 10000)
        st.rngCursor).emotional_weight = 3/10 ∧
    (rawFallbackMemory env (extract_from_log env.jsonlEntries content 10000)
        st.rngCursor).importance = 3/10 ∧
    (1200 < (extract_from_log env.jsonlEntries content 10000).length →
      isSubstr (pyTake 500 (extract_from_log env.jsonlEntries content 10000) ++
          ("\n\n[...]\n\n" : String).data ++
          pyTakeLast 500 (extract_from_log env.jsonlEntries content 10000))
        (rawFallbackMemory env (extract_from_log env.jsonlEntries content 10000)
          st.rngCursor).content = true) ∧
    (¬ 1200 < (extract_from_log env.jsonlEntries content 10000).length →
      isSubstr (extract_from_log env.jsonlEntries content 10000)
        (rawFallbackMemory env (extract_from_log env.jsonlEntries content 10000)
          st.rngCursor).content = true) := by
  refine ⟨?_, rfl, rfl, rfl, ?_, ?_⟩
  · unfold sleep at hflag ⊢
    rw [htr] at hflag ⊢
    simp only [] at hflag ⊢
    rw [if_neg hlen] at hflag ⊢
    cases hsum : env.summarize with
    | none =>
      rw [(sleep_finalize_fields env agent (some st.sessions.length) _).1,
        store_raw_fallback_eq]
    | some raw =>
      rw [hsum] at hflag
      simp only [] at hflag ⊢
      by_cases h30 : raw.length < 30
      · rw [if_pos h30] at hflag ⊢
        rw [(sleep_finalize_fields env agent (some st.sessions.length) _).1,
          store_raw_fallback_eq]
      · rw [if_neg h30] at hflag ⊢
        by_cases hparsed : (env.parsed.threads.isEmpty &&
            env.parsed.lessons.isEmpty && env.parsed.facts.isEmpty) = true
        · rw [if_pos hparsed] at hflag ⊢
          rw [(sleep_finalize_fields env agent (some st.sessions.length) _).1,
            store_raw_fallback_eq]
        · rw [if_neg hparsed] at hflag
          exact absurd hflag (by simp)
  · intro h
    show isSubstr _ (_ ++ rawExcerpt _) = true
    unfold rawExcerpt
    rw [if_pos h]
    exact isSubstr_append_right _ _
  · intro h
    show isSubstr _ (_ ++ rawExcerpt _) = true
    unfold rawExcerpt
    rw [if_neg h]
    exact isSubstr_append_right _ _

/-- C6 witness: the 60-character summariser-failure run stores exactly the
raw-fallback memory with the claimed tags and weights. -/
theorem C6_witness :
    (sleep envC2 "max" stEmpty).1.memories =
      stEmpty.memories ++ [rawFallbackMemory envC2
        (extract_from_log envC2.jsonlEntries (List.replicate 60 'a') 10000)
        stEmpty.rngCursor] ∧
    (rawFallbackMemory envC2
        (extract_from_log envC2.jsonlEntries (List.replicate 60 'a') 10000)
        stEmpty.rngCursor).tags =
      [("session-summary" : String).data, rawExcerptTag, sessionTag envC2] ∧
    (rawFallbackMemory envC2
        (extract_from_log envC2.jsonlEntries (List.replicate 60 'a') 10000)
        stEmpty.rngCursor).emotional_weight = 3/10 ∧
    (rawFallbackMemory envC2
        (extract_from_log envC2.jsonlEntries (List.replicate 60 'a') 10000)
        stEmpty.rngCursor).importance = 3/10 ∧
    (1200 < (extract_from_log envC2.jsonlEntries (List.replicate 60 'a') 10000).length →
      isSubstr (pyTake 500 (extract_from_log envC2.jsonlEntries
          (List.replicate 60 'a') 10000) ++
          ("\n\n[...]\n\n" : String).data ++
          pyTakeLast 500 (extract_from_log envC2.jsonlEntries
            (List.replicate 60 'a') 10000))
        (rawFallbackMemory envC2
          (extract_from_log envC2.jsonlEntries (List.replicate 60 'a') 10000)
          stEmpty.rngCursor).content = true) ∧
    (¬ 1200 < (extract_from_log envC2.jsonlEntries (List.replicate 60 'a') 10000).length →
      isSubstr (extract_from_log envC2.jsonlEntries (List.replicate 60 'a') 10000)
        (rawFallbackMemory envC2
          (extract_from_log envC2.jsonlEntries (List.replicate 60 'a') 10000)
          stEmpty.rngCursor).content = true) :=
  C6_theorem envC2 "max" stEmpty (List.replicate 60 'a') rfl (by decide) (by decide)

-- ============================================================
-- Claim C7 — co-occurrence symmetry
-- ============================================================

/-- C7: after `_store_parsed_memories` stores ids that are pairwise distinct
and fresh with respect to the existing co-occurrence table, every ordered
pair of distinct new ids holds count 1 (so both `(a,b)` and `(b,a)` exist
with equal count), the diagonal is untouched (`a ≠ b` invariant), and the
loop touches exactly `n·(n−1)` ordered pairs. -/
theorem C7_theorem (env : Env) (parsed : Parsed) (st : St)
    (hnodup : (store_parsed_memories env parsed st).2.Nodup)
    (hfresh : ∀ p : Str × Str,
      p.1 ∈ (store_parsed_memories env parsed st).2 ∨
        p.2 ∈ (store_parsed_memories env parsed st).2 → st.co p = 0) :
    (∀ a ∈ (store_parsed_memories env parsed st).2,
      ∀ b ∈ (store_parsed_memories env parsed st).2, a ≠ b →
        (store_parsed_memories env parsed st).1.co (a, b) = 1 ∧
        (store_parsed_memories env parsed st).1.co (b, a) = 1) ∧
    (∀ a : Str,
      (store_parsed_memories env parsed st).1.co (a, a) = st.co (a, a)) ∧
    (coPairs (store_parsed_memories env parsed st).2).length =
      (store_parsed_memories env parsed st).2.length *
        ((store_parsed_memories env parsed st).2.length - 1) := by
  have hids : (store_parsed_memories env parsed st).2 =
      newIds env parsed st.rngCursor :=
    (store_parsed_memories_state env parsed st).2.1
  have hco := store_parsed_memories_co env parsed st
  refine ⟨?_, ?_, coPairs_length _⟩
  · intro a ha b hb hab
    rw [hids] at ha hb hnodup
    have hgt : 1 < (newIds env parsed st.rngCursor).length := by
      rcases hl : newIds env parsed st.rngCursor with _ | ⟨x, _ | ⟨y, l⟩⟩
      · rw [hl] at ha; cases ha
      · rw [hl] at ha hb
        rw [List.mem_singleton.mp ha, List.mem_singleton.mp hb] at hab
        exact absurd rfl hab
      · simp [hl]
    rw [hco, if_pos hgt]
    constructor
    · rw [hfresh (a, b) (Or.inl (hids ▸ ha)),
        coPairs_count_one _ hnodup a b ha hb hab]
    · rw [hfresh (b, a) (Or.inl (hids ▸ hb)),
        coPairs_count_one _ hnodup b a hb ha (fun hc => hab hc.symm)]
  · intro a
    rw [hco]
    split
    · simp only []
      rw [coPairs_count_diag _ (hids ▸ hnodup) a]
      omega
    · rfl

/-- C7 witness: storing two facts yields the symmetric pair of
co-occurrence rows, each with count 1, and 2·1 ordered pairs. -/
theorem C7_witness :
    (store_parsed_memories baseEnv parsedC7 stEmpty).1.co
      (("abcdefgh" : String).data, ("ijklmnop" : String).data) = 1 ∧
    (store_parsed_memories baseEnv parsedC7 stEmpty).1.co
      (("ijklmnop" : String).data, ("abcdefgh" : String).data) = 1 ∧
    (coPairs (store_parsed_memories baseEnv parsedC7 stEmpty).2).length =
      (store_parsed_memories baseEnv parsedC7 stEmpty).2.length *
        ((store_parsed_memories baseEnv parsedC7 stEmpty).2.length - 1) :=
  ⟨((C7_theorem baseEnv parsedC7 stEmpty (by decide) (fun p _ => rfl)).1
      (("abcdefgh" : String).data) (by decide) (("ijklmnop" : String).data)
      (by decide) (by decide)).1,
   ((C7_theorem baseEnv parsedC7 stEmpty (by decide) (fun p _ => rfl)).1
      (("abcdefgh" : String).data) (by decide) (("ijklmnop" : String).data)
      (by decide) (by decide)).2,
   (C7_theorem baseEnv parsedC7 stEmpty (by decide) (fun p _ => rfl)).2.2⟩

-- ============================================================
-- Claim C8 — deterministic ingest mapping
-- ============================================================

theorem genId_spec (draws : Nat → Nat) (base : Nat) :
    (genId draws base).length = 8 ∧ ∀ c ∈ genId draws base, c ∈ idAlphabet := by
  constructor
  · simp [genId]
  · intro c hc
    simp only [genId, List.mem_map, List.mem_range] at hc
    obtain ⟨i, _, rfl⟩ := hc
    have hlt : draws (base + i) % 36 < idAlphabet.length :=
      Nat.mod_lt _ (by norm_num)
    rw [List.getD_eq_getElem?_getD, List.getElem?_eq_getElem hlt]
    exact List.getElem_mem hlt

theorem mem_idsFrom (env : Env) : ∀ (n base : Nat) (id : Str),
    id ∈ idsFrom env n base → ∃ b, id = genId env.draws b := by
  intro n
  induction n with
  | zero => intro base id h; cases h
  | succ k ih =>
    intro base id h
    rcases List.mem_cons.mp h with rfl | h'
    · exact ⟨base, rfl⟩
    · exact ih (base + 8) id h'

/-- C8: `_store_parsed_memories` appends exactly the deterministic rows —
threads, then lessons, then facts, each with the claimed content prefix,
tags, emotional weight, importance 0.5/0.6/0.5 and freshness 1.0 — and
every generated id is an 8-character string over lowercase letters and
digits. -/
theorem C8_theorem (env : Env) (parsed : Parsed) (st : St) :
    (store_parsed_memories env parsed st).1.memories =
      st.memories ++ newMemories env parsed st.rngCursor ∧
    (store_parsed_memories env parsed st).2 = newIds env parsed st.rngCursor ∧
    (∀ id ∈ (store_parsed_memories env parsed st).2,
      id.length = 8 ∧ ∀ c ∈ id, c ∈ idAlphabet) ∧
    (∀ (mid : Str) (th : ThreadItem),
      (mkThreadMemory env mid th).id = mid ∧
      (mkThreadMemory env mid th).mtype = ("active" : String).data ∧
      (mkThreadMemory env mid th).tags =
        [("session-summary" : String).data, ("thread" : String).data,
          sessionTag env, ("thread-" : String).data ++ th.status] ∧
      (mkThreadMemory env mid th).emotional_weight = threadEmotion th.status ∧
      (mkThreadMemory env mid th).importance = 1/2 ∧
      (mkThreadMemory env mid th).freshness = 1 ∧
      (mkThreadMemory env mid th).content =
        ("[Session " : String).data ++ env.sessionDate ++
          ("] Thread: " : String).data ++ th.name ++ (". " : String).data ++
          th.summary ++ (" Status: " : String).data ++ th.status ++
          ("." : String).data) ∧
    threadEmotion (("completed" : String).data) = 65/100 ∧
    threadEmotion (("blocked" : String).data) = 3/10 ∧
    threadEmotion (("in-progress" : String).data) = 1/2 ∧
    (∀ (mid : Str) (l : Str),
      (mkLessonMemory env mid l).id = mid ∧
      (mkLessonMemory env mid l).tags =
        [("session-summary" : String).data, ("lesson" : String).data,
          sessionTag env, ("heuristic" : String).data] ∧
      (mkLessonMemory env mid l).emotional_weight = 6/10 ∧
      (mkLessonMemory env mid l).importance = 6/10 ∧
      (mkLessonMemory env mid l).freshness = 1 ∧
      (mkLessonMemory env mid l).content =
        ("[Session " : String).data ++ env.sessionDate ++
          ("] Lesson learned: " : String).data ++ l) ∧
    (∀ (mid : Str) (f : Str),
      (mkFactMemory env mid f).id = mid ∧
      (mkFactMemory env mid f).tags =
        [("session-summary" : String).data, ("key-fact" : String).data,
          sessionTag env, ("procedural" : String).data] ∧
      (mkFactMemory env mid f).emotional_weight = 1/2 ∧
      (mkFactMemory env mid f).importance = 1/2 ∧
      (mkFactMemory env mid f).freshness = 1 ∧
      (mkFactMemory env mid f).content =
        ("[Session " : String).data ++ env.sessionDate ++
          ("] Key fact: " : String).data ++ f) := by
  refine ⟨(store_parsed_memories_state env parsed st).1,
    (store_parsed_memories_state env parsed st).2.1, ?_,
    fun mid th => ⟨rfl, rfl, rfl, rfl, rfl, rfl, rfl⟩, rfl, rfl, rfl,
    fun mid l => ⟨rfl, rfl, rfl, rfl, rfl, rfl⟩,
    fun mid f => ⟨rfl, rfl, rfl, rfl, rfl, rfl⟩⟩
  intro id hid
  rw [(store_parsed_memories_state env parsed st).2.1] at hid
  unfold newIds at hid
  rcases List.mem_append.mp hid with h | h
  · rcases List.mem_append.mp h with h | h
    · obtain ⟨b, rfl⟩ := mem_idsFrom env _ _ _ h
      exact genId_spec env.draws b
    · obtain ⟨b, rfl⟩ := mem_idsFrom env _ _ _ h
      exact genId_spec env.draws b
  · obtain ⟨b, rfl⟩ := mem_idsFrom env _ _ _ h
    exact genId_spec env.draws b

/-- C8 witness: the two-fact store yields the expected rows and an
8-character id. -/
theorem C8_witness :
    (store_parsed_memories baseEnv parsedC7 stEmpty).1.memories =
      stEmpty.memories ++ newMemories baseEnv parsedC7 stEmpty.rngCursor ∧
    (("abcdefgh" : String).data).length = 8 :=
  ⟨(C8_theorem baseEnv parsedC7 stEmpty).1,
   ((C8_theorem baseEnv parsedC7 stEmpty).2.2.1 (("abcdefgh" : String).data)
     (by decide)).1⟩

-- ============================================================
-- Claim C10 — short-transcript sleep behaviour
-- ============================================================

/-- C10: a transcript whose extracted meaningful text is under 50 characters
stores nothing at all (not even a raw fallback), leaves the shared table
untouched, still starts and ends a session, still refreshes the agent's
registry row, and reports failure (exit code 1). -/
theorem C10_theorem (env : Env) (agent : String) (st : St) (content : Str)
    (htr : env.transcript = some content)
    (hshort : (extract_from_log env.jsonlEntries content 10000).length < 50)
    (hsid : ∀ s ∈ st.sessions, s.sid ≠ st.sessions.length) :
    (sleep env agent st).1.memories = st.memories ∧
    (sleep env agent st).1.shared = st.shared ∧
    (sleep env agent st).2 = false ∧
    (sleep env agent st).1.sessions = st.sessions ++
      [⟨st.sessions.length, env.now, some env.now⟩] ∧
    ((st.registry agent).isSome →
      (sleep env agent st).1.registry agent = some env.now) := by
  unfold sleep
  rw [htr]
  simp only []
  rw [if_pos hshort]
  unfold sleep_finalize
  simp only []
  refine ⟨trivial, trivial, trivial, ?_, ?_⟩
  · show end_session env.now st.sessions.length
      (st.sessions ++ [⟨st.sessions.length, env.now, none⟩]) = _
    unfold end_session
    rw [List.map_append]
    congr 1
    · rw [List.map_congr_left (fun s hs => if_neg (hsid s hs))]
      simp
    · simp
  · intro h
    simp [h]

/-- C10 witness: the 10-character transcript stores nothing, ends its
session, refreshes the registry, and fails. -/
theorem C10_witness :
    (sleep envC3 "max" stC10).1.memories = stC10.memories ∧
    (sleep envC3 "max" stC10).1.shared = stC10.shared ∧
    (sleep envC3 "max" stC10).2 = false ∧
    (sleep envC3 "max" stC10).1.sessions = stC10.sessions ++
      [⟨stC10.sessions.length, envC3.now, some envC3.now⟩] ∧
    ((stC10.registry "max").isSome →
      (sleep envC3 "max" stC10).1.registry "max" = some envC3.now) :=
  C10_theorem envC3 "max" stC10 (List.replicate 10 'a') rfl (by decide)
    (fun s hs => absurd hs (List.not_mem_nil s))

-- ============================================================
-- Claim C9 — wake preamble order
-- ============================================================

theorem lessonFold_shape (rows : List Memory) :
    ∀ acc : List Str, ∃ s, lessonFold rows acc = acc ++ s ∧
      ∀ l ∈ s, ∃ row, row ∈ rows ∧
        l = ("[Lesson] " : String).data ++ previewOf row.content := by
  induction rows with
  | nil => exact fun acc => ⟨[], by simp [lessonFold], by simp⟩
  | cons r rows ih =>
    intro acc
    have hstep : lessonFold (r :: rows) acc = lessonFold rows
        (if acc.any (fun l => isSubstr ((previewOf r.content).take 50) l)
         then acc
         else acc ++ [("[Lesson] " : String).data ++ previewOf r.content]) := rfl
    by_cases hc :
        acc.any (fun l => isSubstr ((previewOf r.content).take 50) l) = true
    · rw [hstep, if_pos hc]
      obtain ⟨s, hs, hall⟩ := ih acc
      exact ⟨s, hs, fun l hl => by
        obtain ⟨row, hr, he⟩ := hall l hl
        exact ⟨row, List.mem_cons_of_mem r hr, he⟩⟩
    · rw [hstep, if_neg hc]
      obtain ⟨s, hs, hall⟩ :=
        ih (acc ++ [("[Lesson] " : String).data ++ previewOf r.content])
      refine ⟨(("[Lesson] " : String).data ++ previewOf r.content) :: s, ?_, ?_⟩
      · rw [hs]; simp
      · intro l hl
        rcases List.mem_cons.mp hl with he | hm
        · exact ⟨r, List.mem_cons_self r rows, he⟩
        · obtain ⟨row, hr, he⟩ := hall l hm
          exact ⟨row, List.mem_cons_of_mem r hr, he⟩

/-- `Q_DEFAULT` is the rational one half. -/
theorem Q_DEFAULT_eq : Q_DEFAULT = 1/2 := by
  rw [Q_DEFAULT, Rat.mk'_eq_divInt, Rat.divInt_eq_div]
  norm_num

theorem ite_append_else {A : Type} (c : Prop) [Decidable c] (l e : List A) :
    (if c then l else l ++ e) = l ++ (if c then [] else e) := by
  split_ifs <;> simp

theorem ite_append_then {A : Type} (c : Prop) [Decidable c] (l e : List A) :
    (if c then l ++ e else l) = l ++ (if c then e else []) := by
  split_ifs <;> simp

theorem ite_append2_else {A : Type} (c : Prop) [Decidable c] (l a b : List A) :
    (if c then l else l ++ a ++ b) = l ++ (if c then [] else a ++ b) := by
  split_ifs <;> simp

set_option maxHeartbeats 1000000 in
theorem wake_blocks (env : Env) (agent : String) (st : St)
    (hne : st.memories.length ≠ 0) :
    (wake env agent st).1 =
      (if (lessonRows st).isEmpty then wakePrefix env agent st
       else lessonFold (lessonRows st) (wakePrefix env agent st ++ [([] : Str)])) ++
      (match qvalueLine (wakeRecalled st).dedup st env.lam with
        | some ql => [([] : Str), ql]
        | none => []) ++
      (if (get_shared_memories st agent 3).isEmpty then []
       else [([] : Str)] ++ get_shared_memories st agent 3) ++
      (if 10 < (pyStrip env.narrative).length then
        [([] : Str), pyStrip env.narrative] else []) ++
      (if 10 < (pyStrip env.goalsText).length then
        [([] : Str), pyStrip env.goalsText] else []) ++
      [([] : Str), statsLine st env.now, sepLine] := by
  rcases hq : qvalueLine (wakeRecalled st).dedup st env.lam with _ | ql <;>
    (have hq' := hq
     simp only [wakeRecalled] at hq'
     unfold wake
     rw [if_neg hne]
     simp only [wakePrefix, get_shared_memories, hq', hq, ite_append_else,
       ite_append2_else, ite_append_then, List.append_nil])

/-- C9 counterexample: in a namespace with one active memory, one shared row
by another agent and a self-narrative paragraph, the preamble places the
shared-memory line strictly before the narrative paragraph, and the narrative
line does occur — refuting the claimed order in which narrative and goals
precede the shared block. -/
theorem C9_counterexample :
    ((wake envC9 "max" stC9).1.findIdx
        (fun l => (("[Shared/" : String).data).isPrefixOf l) <
      (wake envC9 "max" stC9).1.findIdx
        (fun l => l == ("I am a test narrative." : String).data)) ∧
    (wake envC9 "max" stC9).1.findIdx
        (fun l => l == ("I am a test narrative." : String).data) <
      (wake envC9 "max" stC9).1.length := by decide

/-- C9 (amended): for every non-empty namespace the wake preamble is a flat
concatenation in this fixed order — header, optional affect summary, up to 5
recent active memories, up to 3 core memories, the lesson block (drawn from
`lessonRows`, the up-to-3 lesson memories by descending emotional weight,
minus duplicate-suppressed lines), the optional Q-value summary line, then up
to 3 SHARED memories authored by other namespaces, then the optional
self-narrative paragraph, then the optional active-goals paragraph, and
finally the stats footer.  (The original claim put the shared block after
narrative and goals; the code emits it before them.) -/
theorem C9_theorem (env : Env) (agent : String) (st : St)
    (hne : st.memories.length ≠ 0) :
    ∃ lessonLines : List Str,
      (∀ l ∈ lessonLines, ∃ row, row ∈ lessonRows st ∧
          l = ("[Lesson] " : String).data ++ previewOf row.content) ∧
      (wake env agent st).1 =
        wakePrefix env agent st ++
        (if (lessonRows st).isEmpty then [] else ([] : Str) :: lessonLines) ++
        (match qvalueLine (wakeRecalled st).dedup st env.lam with
          | some ql => [([] : Str), ql]
          | none => []) ++
        (if (get_shared_memories st agent 3).isEmpty then []
         else ([] : Str) :: get_shared_memories st agent 3) ++
        (if 10 < (pyStrip env.narrative).length then
          [([] : Str), pyStrip env.narrative] else []) ++
        (if 10 < (pyStrip env.goalsText).length then
          [([] : Str), pyStrip env.goalsText] else []) ++
        [([] : Str), statsLine st env.now, sepLine] := by
  obtain ⟨s, hs, hall⟩ :=
    lessonFold_shape (lessonRows st) (wakePrefix env agent st ++ [([] : Str)])
  refine ⟨s, hall, ?_⟩
  rw [wake_blocks env agent st hne]
  by_cases hl : (lessonRows st).isEmpty = true
  · rw [if_pos hl, if_pos hl]
    simp [List.append_assoc]
  · rw [if_neg hl, if_neg hl, hs]
    simp [List.append_assoc]

/-- C9 witness: the amended decomposition at the concrete namespace `stC9`. -/
theorem C9_witness :
    ∃ lessonLines : List Str,
      (∀ l ∈ lessonLines, ∃ row, row ∈ lessonRows stC9 ∧
          l = ("[Lesson] " : String).data ++ previewOf row.content) ∧
      (wake envC9 "max" stC9).1 =
        wakePrefix envC9 "max" stC9 ++
        (if (lessonRows stC9).isEmpty then [] else ([] : Str) :: lessonLines) ++
        (match qvalueLine (wakeRecalled stC9).dedup stC9 envC9.lam with
          | some ql => [([] : Str), ql]
          | none => []) ++
        (if (get_shared_memories stC9 "max" 3).isEmpty then []
         else ([] : Str) :: get_shared_memories stC9 "max" 3) ++
        (if 10 < (pyStrip envC9.narrative).length then
          [([] : Str), pyStrip envC9.narrative] else []) ++
        (if 10 < (pyStrip envC9.goalsText).length then
          [([] : Str), pyStrip envC9.goalsText] else []) ++
        [([] : Str), statsLine stC9 envC9.now, sepLine] :=
  C9_theorem envC9 "max" stC9 (by decide)

end DriftAgents
